import Mathlib

/-!
# Viewer: input handling, camera updates and command line

A shallow embedding of `src/viewer.cpp`.  `float` values are read as elements of an ordered
field `α`; the functions of `<cmath>`/GLM that the code calls (`sqrt`, `sin`, `cos`, `tan`,
two-argument `atan`, the constant pi) are supplied by a `FloatMath α` record, so every
definition below is computable, and the theorems instantiate it at the real numbers
(`realMath`).  Rounding of `float` arithmetic is not modelled.
-/

namespace Viewer

/-! ## Numeric helpers -/

/-- The math library used by the code: `M_PI`, `sqrt`, `sin`, `cos`, `tan` and the two-argument
arc tangent `glm::atan(y, x)`. -/
structure FloatMath (α : Type) where
  pi : α
  sqrt : α → α
  sin : α → α
  cos : α → α
  tan : α → α
  atan2 : α → α → α

/-- The math library over the real numbers; `atan2 y x` is the argument of `x + y i`, which lies
in `(-pi, pi]` and is `0` at the origin. -/
noncomputable def realMath : FloatMath ℝ where
  pi := Real.pi
  sqrt := Real.sqrt
  sin := Real.sin
  cos := Real.cos
  tan := Real.tan
  atan2 := fun y x => Complex.arg ⟨x, y⟩

section Model

variable {α : Type} [LinearOrderedField α]

/-- `glm::radians(degrees)`: degrees times pi/180. -/
def radians (M : FloatMath α) (degrees : α) : α := degrees * (M.pi / 180)

/-- `glm::half_pi<float>()`. -/
def half_pi (M : FloatMath α) : α := M.pi / 2

/-- `glm::clamp(x, minVal, maxVal)` is `min(max(x, minVal), maxVal)`. -/
def clamp (x minVal maxVal : α) : α := min (max x minVal) maxVal

/-- `glm::vec2`. -/
structure Vec2 (α : Type) where
  x : α
  y : α

/-- `glm::vec3`. -/
structure Vec3 (α : Type) where
  x : α
  y : α
  z : α

/-- Component-wise `a + b` on `glm::vec3`. -/
def Vec3.add (a b : Vec3 α) : Vec3 α := ⟨a.x + b.x, a.y + b.y, a.z + b.z⟩

/-- Component-wise `a - b` on `glm::vec3`. -/
def Vec3.sub (a b : Vec3 α) : Vec3 α := ⟨a.x - b.x, a.y - b.y, a.z - b.z⟩

/-- The product `v * s` of a `glm::vec3` with a scalar. -/
def Vec3.scale (v : Vec3 α) (s : α) : Vec3 α := ⟨v.x * s, v.y * s, v.z * s⟩

/-- `glm::dot(a, b)` for `glm::vec3`. -/
def Vec3.dot (a b : Vec3 α) : α := a.x * b.x + a.y * b.y + a.z * b.z

/-- `glm::length(v)` for `glm::vec3`. -/
def Vec3.length (M : FloatMath α) (v : Vec3 α) : α := M.sqrt (v.x * v.x + v.y * v.y + v.z * v.z)

/-- `glm::normalize(v)` for `glm::vec3`: `v * inversesqrt(dot(v, v))`. -/
def Vec3.normalize (M : FloatMath α) (v : Vec3 α) : Vec3 α :=
  v.scale (1 / M.sqrt (v.x * v.x + v.y * v.y + v.z * v.z))

/-- Component-wise `a + b` on `glm::vec2`. -/
def Vec2.add (a b : Vec2 α) : Vec2 α := ⟨a.x + b.x, a.y + b.y⟩

/-- Component-wise `a - b` on `glm::vec2`. -/
def Vec2.sub (a b : Vec2 α) : Vec2 α := ⟨a.x - b.x, a.y - b.y⟩

/-- The quotient `v / s` of a `glm::vec2` by a scalar. -/
def Vec2.div (v : Vec2 α) (s : α) : Vec2 α := ⟨v.x / s, v.y / s⟩

/-- `glm::length(v)` for `glm::vec2`. -/
def Vec2.length (M : FloatMath α) (v : Vec2 α) : α := M.sqrt (v.x * v.x + v.y * v.y)

/-- `glm::rotate(v, angle)` for `glm::vec2` (glm/gtx/rotate_vector), angle in radians. -/
def Vec2.rotate (M : FloatMath α) (v : Vec2 α) (angle : α) : Vec2 α :=
  ⟨v.x * M.cos angle - v.y * M.sin angle, v.x * M.sin angle + v.y * M.cos angle⟩

/-! ## Data model -/

/-- The fields of `m_cfg` that the modelled functions read or write. -/
structure Config (α : Type) where
  m_eye : Vec3 α
  m_look_at : Vec3 α
  m_up : Vec3 α
  m_fov : α
  m_slow_factor : α
  m_light_angle : α
  m_eye_distance : α
  m_distance_scale : α
  m_roll_offset : α
  m_yaw_offset : α
  m_pitch_offset : α
  m_distance_offset : α
  m_show_menu : Bool
  m_show_calibration : Bool
  m_show_dots : Bool
  m_wiimote_camera_control : Bool

/-- The control-stick state `m_stick`: `hat` is a bit mask of `SDL_HAT_*` bits. -/
structure Stick (α : Type) where
  dir : Vec3 α
  rot : Vec3 α
  light_rotation : Bool
  hat : Nat

/-- A call made on the menu widget by `update_menu`. -/
inductive MenuCall where
  | up
  | down
  | left
  | right
  deriving DecidableEq, Repr

/-- The members of `Viewer` that the modelled functions read or write.  `m_menu` records the
calls made on the menu widget, oldest first.  `m_hat_autorepeat` is declared in `viewer.hpp`; it
is taken to be a 32-bit unsigned tick count like the result of `SDL_GetTicks()`. -/
structure State (α : Type) where
  m_cfg : Config α
  m_stick : Stick α
  m_old_stick : Stick α
  m_hat_autorepeat : Nat
  m_wiimote_scale : Vec2 α
  m_wiimote_dot1 : Vec2 α
  m_wiimote_dot2 : Vec2 α
  m_menu : List MenuCall

/-- Reduction of a tick count to `Uint32`. -/
def u32 (n : Nat) : Nat := n % 2 ^ 32

/-- Subtraction `a - b` of two `Uint32` values. -/
def u32_sub (a b : Nat) : Nat := (a + 2 ^ 32 - b) % 2 ^ 32

/-- `SDL_HAT_UP`. -/
def SDL_HAT_UP : Nat := 1
/-- `SDL_HAT_RIGHT`. -/
def SDL_HAT_RIGHT : Nat := 2
/-- `SDL_HAT_DOWN`. -/
def SDL_HAT_DOWN : Nat := 4
/-- `SDL_HAT_LEFT`. -/
def SDL_HAT_LEFT : Nat := 8

/-- `hat &= ~bit` on the 8-bit hat mask. -/
def clear_hat (hat bit : Nat) : Nat := hat &&& (255 ^^^ bit)

/-! ## `Viewer::on_keyboard_event` -/

/-- The scancodes of `on_keyboard_event` whose case only touches `m_cfg` without a vector
rotation.  Not modelled: `ESCAPE` (leaves the process), `9`/`0` (video player), `C`/`R`/`D`
(compositor), `Z`/`G` (GL clip plane) and `KP_4`, `KP_6`, `KP_7`, `KP_9` (rotations about an
axis).  `other` is a scancode that reaches the `default` case. -/
inductive Scancode where
  | TAB
  | F3
  | N
  | T
  | KP_8
  | KP_2
  | KP_1
  | KP_3
  | KP_MULTIPLY
  | KP_DIVIDE
  | F1
  | F2
  | F10
  | F11
  | other
  deriving DecidableEq, Repr

/-- `Viewer::on_keyboard_event` on the configuration. -/
def on_keyboard_event (M : FloatMath α) (cfg : Config α) (key : Scancode) : Config α :=
  match key with
  | .TAB => { cfg with m_show_menu := !cfg.m_show_menu }
  | .F3 => { cfg with m_show_calibration := !cfg.m_show_calibration }
  | .N => { cfg with m_eye_distance := cfg.m_eye_distance + 0.01 }
  | .T => { cfg with m_eye_distance := cfg.m_eye_distance - 0.01 }
  | .KP_8 => { cfg with m_eye := cfg.m_eye.add (cfg.m_look_at.normalize M) }
  | .KP_2 => { cfg with m_eye := cfg.m_eye.sub (cfg.m_look_at.normalize M) }
  | .KP_1 => { cfg with m_eye := cfg.m_eye.sub (cfg.m_up.normalize M) }
  | .KP_3 => { cfg with m_eye := cfg.m_eye.add (cfg.m_up.normalize M) }
  | .KP_MULTIPLY => { cfg with m_fov := cfg.m_fov + radians M 1 }
  | .KP_DIVIDE => { cfg with m_fov := cfg.m_fov - radians M 1 }
  | .F1 =>
    let old_fov := cfg.m_fov
    let fov := cfg.m_fov + radians M 1
    if fov < radians M 160 then
      { cfg with
        m_fov := fov
        m_eye := { cfg.m_eye with
          z := cfg.m_eye.z * (2 * M.tan (0.5 * old_fov)) / (2 * M.tan (0.5 * fov)) } }
    else
      { cfg with m_fov := 160 }
  | .F2 =>
    let old_fov := cfg.m_fov
    let fov := cfg.m_fov - 1
    if fov ≥ 7 then
      { cfg with
        m_fov := fov
        m_eye := { cfg.m_eye with
          z := cfg.m_eye.z * (2 * M.tan (0.5 * old_fov)) / (2 * M.tan (0.5 * fov)) } }
    else
      { cfg with m_fov := 7 }
  | .F10 => cfg
  | .F11 => cfg
  | .other => cfg

/-! ## `Viewer::process_events` -/

/-- Controller buttons; `other` is a button without a case in `process_events`. -/
inductive Button where
  | LEFTSHOULDER
  | RIGHTSHOULDER
  | B
  | X
  | START
  | BACK
  | DPAD_UP
  | DPAD_DOWN
  | DPAD_LEFT
  | DPAD_RIGHT
  | other
  deriving DecidableEq, Repr

/-- Controller axes; `other` is an axis without a case in `process_events`. -/
inductive Axis where
  | LEFTX
  | LEFTY
  | TRIGGERLEFT
  | TRIGGERRIGHT
  | RIGHTX
  | RIGHTY
  | other
  deriving DecidableEq, Repr

/-- The events of `process_events` that change the modelled state.  An axis event carries, next
to its own value, the trigger values that `SDL_GameControllerGetAxis` returns at that moment; a
button event carries `cbutton.state` (0 released, 1 pressed).  `other` stands for the events
whose case changes nothing here (window, key up, mouse button, joystick) and for mouse motion,
which is not modelled. -/
inductive Event where
  | KEYDOWN (key : Scancode)
  | MOUSEWHEEL (y : Int)
  | CONTROLLERAXISMOTION (axis : Axis) (value : Int) (trigger_left trigger_right : Int)
  | CONTROLLERBUTTON (button : Button) (state : Nat)
  | other
  deriving DecidableEq, Repr

/-- A directional-pad case of `process_events`: set the bit and arm the autorepeat timer on a
press, clear the bit on a release. -/
def dpad_button (v : State α) (bit state ticks : Nat) : State α :=
  if state ≠ 0 then
    { v with
      m_stick := { v.m_stick with hat := v.m_stick.hat ||| bit }
      m_hat_autorepeat := u32 (ticks + 500) }
  else
    { v with m_stick := { v.m_stick with hat := clear_hat v.m_stick.hat bit } }

/-- The body of the `while(SDL_PollEvent(&ev))` loop of `process_events` for one event; `ticks`
is what `SDL_GetTicks()` returns while this event is handled. -/
def process_event (M : FloatMath α) (v : State α) (ev : Event) (ticks : Nat) : State α :=
  match ev with
  | .KEYDOWN key => { v with m_cfg := on_keyboard_event M v.m_cfg key }
  | .MOUSEWHEEL y => { v with m_cfg := { v.m_cfg with m_fov := v.m_cfg.m_fov + radians M (y : α) } }
  | .CONTROLLERAXISMOTION axis value trigger_left trigger_right =>
    match axis with
    | .LEFTX =>
      { v with m_stick := { v.m_stick with dir := { v.m_stick.dir with x := -(value : α) / 32768 } } }
    | .LEFTY =>
      { v with m_stick := { v.m_stick with dir := { v.m_stick.dir with z := -(value : α) / 32768 } } }
    | .TRIGGERLEFT | .TRIGGERRIGHT =>
      { v with m_stick := { v.m_stick with
          rot := { v.m_stick.rot with z := ((trigger_right - trigger_left : Int) : α) / 32768 } } }
    | .RIGHTX =>
      { v with m_stick := { v.m_stick with rot := { v.m_stick.rot with y := -(value : α) / 32768 } } }
    | .RIGHTY =>
      { v with m_stick := { v.m_stick with rot := { v.m_stick.rot with x := -(value : α) / 32768 } } }
    | .other => v
  | .CONTROLLERBUTTON button state =>
    match button with
    | .LEFTSHOULDER =>
      { v with m_stick := { v.m_stick with dir := { v.m_stick.dir with y := -(state : α) } } }
    | .RIGHTSHOULDER =>
      { v with m_stick := { v.m_stick with dir := { v.m_stick.dir with y := (state : α) } } }
    | .B => v
    | .X => { v with m_stick := { v.m_stick with light_rotation := decide (state ≠ 0) } }
    | .START =>
      if state ≠ 0 then { v with m_cfg := { v.m_cfg with m_show_menu := !v.m_cfg.m_show_menu } }
      else v
    | .BACK =>
      if state ≠ 0 then { v with m_cfg := { v.m_cfg with m_show_dots := !v.m_cfg.m_show_dots } }
      else v
    | .DPAD_UP => dpad_button v SDL_HAT_UP state ticks
    | .DPAD_DOWN => dpad_button v SDL_HAT_DOWN state ticks
    | .DPAD_LEFT => dpad_button v SDL_HAT_LEFT state ticks
    | .DPAD_RIGHT => dpad_button v SDL_HAT_RIGHT state ticks
    | .other => v
  | .other => v

/-- `Viewer::process_events`: drain the event queue; each event comes with the tick count read
while it is handled. -/
def process_events (M : FloatMath α) (v : State α) (evs : List (Event × Nat)) : State α :=
  evs.foldl (fun s e => process_event M s e.1 e.2) v

/-! ## `Viewer::update_menu` -/

/-- The menu calls that one pass through the body of `update_menu` makes for a hat mask. -/
def hat_calls (hat : Nat) : List MenuCall :=
  (if hat &&& SDL_HAT_UP ≠ 0 then [MenuCall.up] else []) ++
  (if hat &&& SDL_HAT_DOWN ≠ 0 then [MenuCall.down] else []) ++
  (if hat &&& SDL_HAT_LEFT ≠ 0 then [MenuCall.left] else []) ++
  (if hat &&& SDL_HAT_RIGHT ≠ 0 then [MenuCall.right] else [])

/-- `Viewer::update_menu`; `current_time` is the result of `SDL_GetTicks()`. -/
def update_menu (v : State α) (current_time : Nat) : State α :=
  if v.m_stick.hat ≠ v.m_old_stick.hat ∨ (v.m_stick.hat ≠ 0 ∧ v.m_hat_autorepeat < current_time) then
    let v1 :=
      if v.m_hat_autorepeat < current_time then
        { v with
          m_hat_autorepeat := u32 (current_time + 100 + u32_sub v.m_hat_autorepeat current_time) }
      else v
    { v1 with m_menu := v1.m_menu ++ hat_calls v1.m_stick.hat }
  else v

/-! ## `Viewer::update_fps_mode` -/

/-- The local `yaw` of `update_fps_mode` after the stick rotation is added. -/
def fps_yaw (M : FloatMath α) (v : State α) (dt : α) : α :=
  let tmp := v.m_cfg.m_look_at
  M.atan2 tmp.z tmp.x + -v.m_stick.rot.y * 2 * dt

/-- The local `pitch` of `update_fps_mode` after the stick rotation is added and the result is
clamped; this is the pitch from which the new `m_look_at` is built. -/
def fps_pitch (M : FloatMath α) (v : State α) (dt : α) : α :=
  let tmp := v.m_cfg.m_look_at
  let xz_dist := M.sqrt (tmp.x * tmp.x + tmp.z * tmp.z)
  clamp (M.atan2 tmp.y xz_dist + v.m_stick.rot.x * 2 * dt)
    (-half_pi M + 0.001) (half_pi M - 0.001)

/-- `Viewer::update_fps_mode`.  The branch guarded by `false && ...` is dead and left out. -/
def update_fps_mode (M : FloatMath α) (v : State α) (dt : α) : State α :=
  let cfg := v.m_cfg
  let focus_distance := cfg.m_look_at.length M
  let yaw := fps_yaw M v dt
  let pitch := fps_pitch M v dt
  let forward : Vec3 α := ⟨M.cos yaw, 0, M.sin yaw⟩
  -- forward/backward
  let eye := cfg.m_eye.add ((((Vec3.scale forward 10).scale v.m_stick.dir.z).scale dt).scale
    cfg.m_slow_factor)
  -- strafe
  let eye := eye.add (((((⟨forward.z, 0, -forward.x⟩ : Vec3 α).scale 10).scale
    v.m_stick.dir.x).scale dt).scale cfg.m_slow_factor)
  -- up/down
  let eye := { eye with y := eye.y + 10 * v.m_stick.dir.y * dt * cfg.m_slow_factor }
  let look_at : Vec3 α :=
    (⟨M.cos pitch * M.cos yaw, M.sin pitch, M.cos pitch * M.sin yaw⟩ : Vec3 α).scale focus_distance
  let f := M.sqrt (look_at.x * look_at.x + look_at.z * look_at.z)
  let up : Vec3 α := ⟨-look_at.x / f * look_at.y, f, -look_at.z / f * look_at.y⟩
  { v with m_cfg := { cfg with m_eye := eye, m_look_at := look_at, m_up := up.normalize M } }

/-- The pitch of a look-at vector as `update_fps_mode` recovers it:
`atan2(y, sqrt(x^2 + z^2))`. -/
def look_at_pitch (M : FloatMath α) (look_at : Vec3 α) : α :=
  M.atan2 look_at.y (M.sqrt (look_at.x * look_at.x + look_at.z * look_at.z))

/-! ## `Viewer::process_keyboard` and `Viewer::process_joystick` -/

/-- `SDL_SCANCODE_RIGHT`. -/
def SDL_SCANCODE_RIGHT : Nat := 79
/-- `SDL_SCANCODE_LEFT`. -/
def SDL_SCANCODE_LEFT : Nat := 80
/-- `SDL_SCANCODE_DOWN`. -/
def SDL_SCANCODE_DOWN : Nat := 81
/-- `SDL_SCANCODE_UP`. -/
def SDL_SCANCODE_UP : Nat := 82
/-- `SDL_SCANCODE_PAGEUP`. -/
def SDL_SCANCODE_PAGEUP : Nat := 75
/-- `SDL_SCANCODE_PAGEDOWN`. -/
def SDL_SCANCODE_PAGEDOWN : Nat := 78

/-- The lambda `key2float` of `process_keyboard`; `state` is the array returned by
`SDL_GetKeyboardState`, indexed by scancode, non-zero where the key is held. -/
def key2float (state : Nat → Nat) (lhs rhs : Nat) : α :=
  if state lhs ≠ 0 ∧ ¬ (state rhs ≠ 0) then 1
  else if state rhs ≠ 0 ∧ ¬ (state lhs ≠ 0) then -1
  else 0

/-- `Viewer::process_keyboard`. -/
def process_keyboard (v : State α) (state : Nat → Nat) : State α :=
  { v with m_stick := { v.m_stick with
      dir := ⟨key2float state SDL_SCANCODE_LEFT SDL_SCANCODE_RIGHT,
              key2float state SDL_SCANCODE_PAGEUP SDL_SCANCODE_PAGEDOWN,
              key2float state SDL_SCANCODE_UP SDL_SCANCODE_DOWN⟩ } }

/-- The block "apply deadzone" of `process_joystick`. -/
def apply_deadzone (s : Stick α) : Stick α :=
  let deadzone : α := 0.2
  { s with
    dir := ⟨if |s.dir.x| < deadzone then 0 else s.dir.x,
            if |s.dir.y| < deadzone then 0 else s.dir.y,
            if |s.dir.z| < deadzone then 0 else s.dir.z⟩
    rot := ⟨if |s.rot.x| < deadzone then 0 else s.rot.x,
            if |s.rot.y| < deadzone then 0 else s.rot.y,
            if |s.rot.z| < deadzone then 0 else s.rot.z⟩ }

/-- `Viewer::process_joystick`; `ticks` is what `SDL_GetTicks()` returns inside
`update_menu`. -/
def process_joystick (M : FloatMath α) (v : State α) (dt : α) (ticks : Nat) : State α :=
  let v := { v with m_stick := apply_deadzone v.m_stick }
  let v := update_menu v ticks
  let delta := dt * 5 * v.m_cfg.m_slow_factor
  let v :=
    if v.m_stick.light_rotation then
      { v with m_cfg := { v.m_cfg with m_light_angle := v.m_cfg.m_light_angle + delta * 30 } }
    else v
  let v := update_fps_mode M v dt
  { v with m_old_stick := v.m_stick }

/-! ## `Viewer::update_offsets` -/

/-- `Viewer::update_offsets`. -/
def update_offsets (M : FloatMath α) (v : State α) (p1 p2 : Vec2 α) : State α :=
  let p := if p1.x > p2.x then (p2, p1) else (p1, p2)
  let p1 := p.1
  let p2 := p.2
  let r := p2.sub p1
  let angle := M.atan2 (-r.y) r.x
  let distance_offset :=
    v.m_cfg.m_distance_scale * r.length M / 2 * M.tan (radians M v.m_cfg.m_fov)
  let c := (p1.add p2).div 2
  let c := c.sub ⟨512, 384⟩
  let c := c.rotate M angle
  let c := c.add ⟨512, 384⟩
  { v with
    m_cfg := { v.m_cfg with
      m_roll_offset := angle
      m_distance_offset := distance_offset
      m_yaw_offset := ((c.x / 1024) - 0.5) * half_pi M * v.m_wiimote_scale.x
      m_pitch_offset := ((c.y / 768) - 0.5) * half_pi M * v.m_wiimote_scale.y }
    m_wiimote_dot1 := ⟨p1.x / 1024, 1 - (p1.y / 768)⟩
    m_wiimote_dot2 := ⟨p2.x / 1024, 1 - (p2.y / 768)⟩ }

/-! ## `Viewer::parse_args` and `Viewer::init_video_player` -/

/-- The members of `VideoOptions` that the code uses (declared in `viewer.hpp`). -/
structure VideoOptions (α : Type) where
  filename : String
  stereo : Bool
  flat_canvas : Bool
  hfov : α
  vfov : α

/-- The members of `Options` that the code uses (declared in `viewer.hpp`). -/
structure Options (α : Type) where
  wiimote : Bool
  video : VideoOptions α
  models : List String

/-- How a call of `parse_args` ends: it returns with the options filled in, it throws
`std::runtime_error(what)`, it prints the usage text and calls `exit(status)`, or it takes
`argv[i]` with `i = argc`, which is the null pointer that ends `argv`, and hands it to
`std::string` or `sscanf` (undefined behaviour). -/
inductive ParseResult (α : Type) where
  | returned (opts : Options α)
  | runtime_error (what : String)
  | exit (status : Int)
  | null_argument (i : Nat)

/-- `argv[i][0] == '-'`. -/
def starts_with_dash (arg : String) : Bool :=
  match arg.data with
  | '-' :: _ => true
  | _ => false

/-- The `for` loop of `parse_args` from position `i` on; the list holds `argv[i]`, ...,
`argv[argc-1]`.  The call `sscanf(argv[i+1], "%fx%f", &opts.video.hfov, &opts.video.vfov)` of
the C library is the parameter `sscanf`: it gives the return value of the call and the two
numbers that the call stores when it returns 2. -/
def parse_loop (M : FloatMath α) (sscanf : List Char → Int × α × α) (i : Nat) :
    List String → Options α → ParseResult α
  | [], opts => .returned opts
  | arg :: rest, opts =>
    if starts_with_dash arg then
      if arg = "--wiimote" then
        parse_loop M sscanf (i + 1) rest { opts with wiimote := true }
      else if arg = "--video" then
        match rest with
        | [] => .null_argument (i + 1)
        | value :: rest =>
          parse_loop M sscanf (i + 2) rest
            { opts with video := { opts.video with filename := value } }
      else if arg = "--video3d" then
        match rest with
        | [] => .null_argument (i + 1)
        | value :: rest =>
          parse_loop M sscanf (i + 2) rest
            { opts with video := { opts.video with stereo := true, filename := value } }
      else if arg = "--video3d-fov" then
        match rest with
        | [] => .null_argument (i + 1)
        | value :: rest =>
          let r := sscanf value.data
          if r.1 ≠ 2 then
            .runtime_error ("expected --video3d-fov HFOVxVFOV, got '" ++ arg ++ "'")
          else
            parse_loop M sscanf (i + 2) rest
              { opts with video := { opts.video with
                  hfov := radians M r.2.1, vfov := radians M r.2.2 } }
      else if arg = "--help" ∨ arg = "-h" then
        .exit 0
      else
        .runtime_error ("unknown option: " ++ arg)
    else
      parse_loop M sscanf (i + 1) rest { opts with models := opts.models ++ [arg] }

/-- `Viewer::parse_args(argc, argv, opts)`; `argv` lists `argv[0]`, ..., `argv[argc-1]`, and
`sscanf` is the call of the C library as in `parse_loop`. -/
def parse_args (M : FloatMath α) (sscanf : List Char → Int × α × α) (argv : List String)
    (opts : Options α) : ParseResult α :=
  parse_loop M sscanf 1 (argv.drop 1) opts

/-- The mesh that `init_video_player` asks the mesh factory for. -/
inductive Mesh (α : Type) where
  | plane (size : α)
  | curved_screen (radius hfov vfov : α) (rings segments : Nat)

/-- The scene node that `init_video_player` creates: its mesh, and the position, orientation
(Euler angles) and scale when the code sets them. -/
structure VideoNode (α : Type) where
  mesh : Mesh α
  position : Option (Vec3 α)
  orientation : Option (Vec3 α)
  scale : Option (Vec3 α)

/-- `Viewer::init_video_player`. -/
def init_video_player (M : FloatMath α) (cfg : VideoOptions α) : VideoNode α :=
  if cfg.flat_canvas then
    { mesh := .plane 5
      position := some ⟨0, 0, -10⟩
      orientation := some ⟨half_pi M, 0, 0⟩
      scale := some ⟨4, 1, 2.25⟩ }
  else
    { mesh := .curved_screen 15 cfg.hfov cfg.vfov 32 32
      position := none
      orientation := none
      scale := none }

/-! ## Runs and example states -/

/-- Repeated `update_fps_mode`: each input is the stick state that the call reads and the frame
time `dt` that it is given. -/
def fps_run (M : FloatMath α) (v : State α) : List (Stick α × α) → State α
  | [] => v
  | (s, dt) :: rest => fps_run M (update_fps_mode M { v with m_stick := s } dt) rest

/-- A stick state with every axis centred and no button held. -/
def centred_stick : Stick α :=
  { dir := ⟨0, 0, 0⟩, rot := ⟨0, 0, 0⟩, light_rotation := false, hat := 0 }

/-- A viewer state for the examples: the eye at `(0, 0, 1)` looking along the negative z axis,
a field of view of one radian, unit scale factors, stick centred, and no menu call made so
far. -/
def rest_state : State α :=
  { m_cfg :=
      { m_eye := ⟨0, 0, 1⟩, m_look_at := ⟨0, 0, -1⟩, m_up := ⟨0, 1, 0⟩, m_fov := 1,
        m_slow_factor := 1, m_light_angle := 0, m_eye_distance := 0, m_distance_scale := 1,
        m_roll_offset := 0, m_yaw_offset := 0, m_pitch_offset := 0, m_distance_offset := 0,
        m_show_menu := false, m_show_calibration := false, m_show_dots := false,
        m_wiimote_camera_control := false }
    m_stick := centred_stick
    m_old_stick := centred_stick
    m_hat_autorepeat := 0
    m_wiimote_scale := ⟨1, 1⟩
    m_wiimote_dot1 := ⟨0, 0⟩
    m_wiimote_dot2 := ⟨0, 0⟩
    m_menu := [] }

/-! ## One pass of `Viewer::main_loop` -/

/-- What one pass of the loop of `main_loop` takes from outside: the queued events, each with
the tick count read while it is handled, the frame time `delta / 1000.0f`, the tick count that
`update_menu` reads, and the keyboard state. -/
structure Frame (α : Type) where
  events : List (Event × Nat)
  dt : α
  ticks : Nat
  keys : Nat → Nat

/-- The input part of one pass of `main_loop`: `process_events`, `process_joystick`,
`process_keyboard`. -/
def main_loop_step (M : FloatMath α) (v : State α) (f : Frame α) : State α :=
  process_keyboard (process_joystick M (process_events M v f.events) f.dt f.ticks) f.keys

/-- Successive passes of `main_loop`. -/
def main_loop_steps (M : FloatMath α) (v : State α) (fs : List (Frame α)) : State α :=
  fs.foldl (main_loop_step M) v

/-- The hat bit of a directional-pad button, `0` for the other buttons. -/
def Button.hat_bit : Button → Nat
  | .DPAD_UP => SDL_HAT_UP
  | .DPAD_DOWN => SDL_HAT_DOWN
  | .DPAD_LEFT => SDL_HAT_LEFT
  | .DPAD_RIGHT => SDL_HAT_RIGHT
  | _ => 0

/-- Whether a button is one of the four directional-pad buttons. -/
def Button.is_dpad : Button → Bool
  | .DPAD_UP => true
  | .DPAD_DOWN => true
  | .DPAD_LEFT => true
  | .DPAD_RIGHT => true
  | _ => false

/-- Whether an event is a press or release of a directional-pad button. -/
def Event.is_dpad : Event → Bool
  | .CONTROLLERBUTTON button _ => button.is_dpad
  | _ => false

/-- The menu calls of `n` actions: `n` copies of the calls of one action. -/
def repeated (calls : List MenuCall) : Nat → List MenuCall
  | 0 => []
  | n + 1 => repeated calls n ++ calls

/-! ## Decimal numerals on the command line -/

/-- `isspace` in the C locale. -/
def isspace (c : Char) : Bool :=
  c = ' ' || c = '\t' || c = '\n' || c = '\x0b' || c = '\x0c' || c = '\r'

/-- Skip the white space in front of a conversion. -/
def skip_space : List Char → List Char
  | [] => []
  | c :: cs => if isspace c then skip_space cs else c :: cs

/-- The value of a decimal digit. -/
def digit_value (c : Char) : Option Nat :=
  if '0' ≤ c ∧ c ≤ '9' then some (c.toNat - '0'.toNat) else none

/-- Read the longest run of decimal digits: the number read so far, how many digits were read,
and the input left. -/
def scan_digits : List Char → Nat → Nat → Nat × Nat × List Char
  | [], acc, n => (acc, n, [])
  | c :: cs, acc, n =>
    match digit_value c with
    | some d => scan_digits cs (acc * 10 + d) (n + 1)
    | none => (acc, n, c :: cs)

/-- Read an optional sign; `true` for a minus sign. -/
def scan_sign : List Char → Bool × List Char
  | [] => (false, [])
  | c :: cs => if c = '-' then (true, cs) else if c = '+' then (false, cs) else (false, c :: cs)

/-- Read the digits after a decimal point, when the input goes on with a point. -/
def scan_fraction : List Char → Nat × Nat × List Char
  | [] => (0, 0, [])
  | c :: cs => if c = '.' then scan_digits cs 0 0 else (0, 0, c :: cs)

/-- Read the exponent of a number with mantissa `m`, when the input goes on with `e` or `E`:
the letter and an optional sign are taken, and the digits after them are the exponent; with no
digit there the number read is the mantissa. -/
def scan_exponent (m : α) : List Char → α × List Char
  | [] => (m, [])
  | c :: cs =>
    if c = 'e' ∨ c = 'E' then
      let es := scan_sign cs
      let ex := scan_digits es.2 0 0
      if ex.2.1 = 0 then (m, es.2)
      else (if es.1 then m / 10 ^ ex.1 else m * 10 ^ ex.1, ex.2.2)
    else (m, c :: cs)

/-- The reading of a decimal number as the conversion `%f` does it: white space, an optional
sign, digits with an optional fraction (at least one digit in all), and an optional exponent.
The result is the number read and the input left, or `none` when no number is there.  This is
the decimal part of `%f` only: a number that begins, after its sign, with `0x` or `0X`
(hexadecimal) or with a letter (`inf`, `nan`) is not read as the C library reads it. -/
def scan_decimal (s : List Char) : Option (α × List Char) :=
  let s := skip_space s
  let sg := scan_sign s
  let ip := scan_digits sg.2 0 0
  let fp := scan_fraction ip.2.2
  if ip.2.1 + fp.2.1 = 0 then none
  else
    let m : α := (ip.1 : α) + (fp.1 : α) / 10 ^ fp.2.1
    some (scan_exponent (if sg.1 then -m else m) fp.2.2)

/-- The decimal reading of a value in the format `"%fx%f"`: the return value (the number of
conversions stored, `-1` for `EOF` when the input ends before the first conversion) and the two
numbers read, `0` for one that is not read.  It stands for the `sscanf` of the C library only in
the examples, at the values `90x60`, `90x60abc` and `bogus`, which hold decimal numbers or no
number at all; in the model of `parse_args` the call of `sscanf` is a parameter. -/
def sscanf_decimal (str : List Char) : Int × α × α :=
  if skip_space str = [] then (-1, 0, 0)
  else
    match scan_decimal str with
    | none => (0, 0, 0)
    | some (h, rest) =>
      match rest with
      | 'x' :: rest =>
        match scan_decimal rest with
        | none => (1, h, 0)
        | some (w, _) => (2, h, w)
      | _ => (1, h, 0)

/-- A decimal numeral as it is written: an optional sign (`some true` for `-`, `some false` for
`+`), the digits before the point and, when there is a point, the digits after it. -/
structure Decimal where
  sign : Option Bool
  int_digits : List (Fin 10)
  frac_digits : Option (List (Fin 10))

/-- The character of a decimal digit. -/
def digit_char (d : Fin 10) : Char := Char.ofNat (48 + d.val)

/-- The characters of the sign of a numeral. -/
def sign_text : Option Bool → List Char
  | none => []
  | some true => ['-']
  | some false => ['+']

/-- The characters of the fraction of a numeral: the point and the digits after it. -/
def frac_text : Option (List (Fin 10)) → List Char
  | none => []
  | some fs => '.' :: fs.map digit_char

/-- The characters of a numeral. -/
def Decimal.text (d : Decimal) : List Char :=
  sign_text d.sign ++ (d.int_digits.map digit_char ++ frac_text d.frac_digits)

/-- The number of digits of a numeral. -/
def Decimal.digit_count (d : Decimal) : Nat :=
  d.int_digits.length + (d.frac_digits.getD []).length

/-- The number that a numeral denotes. -/
def Decimal.value (d : Decimal) : α :=
  let m : α := ((Nat.ofDigits 10 (d.int_digits.reverse.map Fin.val) : Nat) : α) +
    ((Nat.ofDigits 10 ((d.frac_digits.getD []).reverse.map Fin.val) : Nat) : α) /
      10 ^ (d.frac_digits.getD []).length
  if d.sign = some true then -m else m

/-- Whether the input cannot continue a number: it is empty or its first character is not a
digit, a point or an exponent letter. -/
def ends_number : List Char → Bool
  | [] => true
  | c :: _ => (digit_value c).isNone && c != '.' && c != 'e' && c != 'E'

/-- Whether the input, after white space, can begin a number: its first character is a sign, a
digit or a point. -/
def starts_number (s : List Char) : Bool :=
  match skip_space s with
  | [] => false
  | c :: _ => c == '-' || c == '+' || c == '.' || (digit_value c).isSome

/-- Options for the examples: nothing set, no file name, angles zero, no models. -/
def blank_options : Options α :=
  { wiimote := false
    video := { filename := "", stereo := false, flat_canvas := false, hfov := 0, vfov := 0 }
    models := [] }

/-! ## Positional arguments, as the specification words them -/

/-- The flags that take the next argument as their value. -/
def is_value_flag (arg : String) : Bool :=
  arg = "--video" || arg = "--video3d" || arg = "--video3d-fov"

/-- Whether `argv[k]` is consumed as the value of a value-taking flag: the argument before it
is such a flag and is itself read as a flag, that is, it is not `argv[0]` and is not consumed as
a value. -/
def consumed (argv : List String) : Nat → Bool
  | 0 => false
  | k + 1 => decide (1 ≤ k) && is_value_flag (argv.getD k "") && !consumed argv k

/-- Whether `argv[k]` is a positional argument: it comes after `argv[0]`, does not start with
`-` and is not consumed as a value. -/
def is_positional (argv : List String) (k : Nat) : Bool :=
  decide (1 ≤ k) && !starts_with_dash (argv.getD k "") && !consumed argv k

/-- The positional arguments of a command line, in order. -/
def positional (argv : List String) : List String :=
  ((List.range argv.length).filter (is_positional argv)).map (fun k => argv.getD k "")

/-! ## The positions of `argv` that `parse_args` reads -/

/-- The `for` loop of `parse_args` from position `i` on, together with the positions of `argv`
that it reads, in order: `argv[i]` in every pass (the test of `argv[i][0]` and the `strcmp`
calls), `argv[i+1]` for `--video`, `--video3d` and `--video3d-fov`, and `argv[0]` for the usage
text. -/
def parse_loop_reads (M : FloatMath α) (sscanf : List Char → Int × α × α) (i : Nat) :
    List String → Options α → List Nat × ParseResult α
  | [], opts => ([], .returned opts)
  | arg :: rest, opts =>
    if starts_with_dash arg then
      if arg = "--wiimote" then
        let r := parse_loop_reads M sscanf (i + 1) rest { opts with wiimote := true }
        (i :: r.1, r.2)
      else if arg = "--video" then
        match rest with
        | [] => ([i, i + 1], .null_argument (i + 1))
        | value :: rest =>
          let r := parse_loop_reads M sscanf (i + 2) rest
            { opts with video := { opts.video with filename := value } }
          (i :: (i + 1) :: r.1, r.2)
      else if arg = "--video3d" then
        match rest with
        | [] => ([i, i + 1], .null_argument (i + 1))
        | value :: rest =>
          let r := parse_loop_reads M sscanf (i + 2) rest
            { opts with video := { opts.video with stereo := true, filename := value } }
          (i :: (i + 1) :: r.1, r.2)
      else if arg = "--video3d-fov" then
        match rest with
        | [] => ([i, i + 1], .null_argument (i + 1))
        | value :: rest =>
          let s := sscanf value.data
          if s.1 ≠ 2 then
            ([i, i + 1], .runtime_error ("expected --video3d-fov HFOVxVFOV, got '" ++ arg ++ "'"))
          else
            let r := parse_loop_reads M sscanf (i + 2) rest
              { opts with video := { opts.video with
                  hfov := radians M s.2.1, vfov := radians M s.2.2 } }
            (i :: (i + 1) :: r.1, r.2)
      else if arg = "--help" ∨ arg = "-h" then
        ([i, 0], .exit 0)
      else
        ([i], .runtime_error ("unknown option: " ++ arg))
    else
      let r := parse_loop_reads M sscanf (i + 1) rest { opts with models := opts.models ++ [arg] }
      (i :: r.1, r.2)

/-- `Viewer::parse_args` together with the positions of `argv` that it reads. -/
def parse_args_reads (M : FloatMath α) (sscanf : List Char → Int × α × α)
    (argv : List String) (opts : Options α) : List Nat × ParseResult α :=
  parse_loop_reads M sscanf 1 (argv.drop 1) opts

/-- Whether the loop, arriving at position `k`, ends there with `--help`, `-h` or an argument
error: `argv[k]` starts with `-` and is not `--wiimote`, and it is either no value-taking flag
(help or an unknown option) or it is `--video3d-fov` with a value for which `sscanf` does not
return 2. -/
def stops_at (sscanf : List Char → Int × α × α) (argv : List String) (k : Nat) : Bool :=
  starts_with_dash (argv.getD k "") && argv.getD k "" != "--wiimote" &&
    (!is_value_flag (argv.getD k "") ||
      (argv.getD k "" == "--video3d-fov" && (sscanf (argv.getD (k + 1) "").data).1 != 2))

/-- Whether a value-taking flag occurs as the last argument, at a flag position and before any
`--help`, `-h` or argument error: the last argument is `--video`, `--video3d` or
`--video3d-fov`, it is not consumed as a value, and the loop stops at no flag position before
it. -/
def dangling_value_flag (sscanf : List Char → Int × α × α) (argv : List String) : Bool :=
  decide (2 ≤ argv.length) && is_value_flag (argv.getD (argv.length - 1) "") &&
    !consumed argv (argv.length - 1) &&
    (List.range (argv.length - 1)).all
      (fun k => !(decide (1 ≤ k) && !consumed argv k && stops_at sscanf argv k))

end Model

end Viewer

namespace Viewer

/-! ## Keyboard axes and the deadzone -/

/-- C1, counterexample: with only the key of the first argument held, `key2float` gives `+1`,
not `-1`; the first argument is not the negative key. -/
theorem key2float_first_held_counterexample :
    (key2float (fun k => if k = SDL_SCANCODE_LEFT then 1 else 0)
        SDL_SCANCODE_LEFT SDL_SCANCODE_RIGHT : ℝ) = 1 ∧
    (key2float (fun k => if k = SDL_SCANCODE_LEFT then 1 else 0)
        SDL_SCANCODE_LEFT SDL_SCANCODE_RIGHT : ℝ) ≠ -1 := by
  norm_num [key2float, SDL_SCANCODE_LEFT, SDL_SCANCODE_RIGHT]

/-- C1, amended: for every keyboard state and every key pair, `key2float` gives `0` when both
keys or neither key is held, `+1` when only the key of the first argument is held and `-1` when
only the key of the second argument is held. -/
theorem key2float_axis {α : Type} [LinearOrderedField α] (state : Nat → Nat) (lhs rhs : Nat) :
    (state lhs ≠ 0 ∧ state rhs ≠ 0 → (key2float state lhs rhs : α) = 0) ∧
    (state lhs = 0 ∧ state rhs = 0 → (key2float state lhs rhs : α) = 0) ∧
    (state lhs ≠ 0 ∧ state rhs = 0 → (key2float state lhs rhs : α) = 1) ∧
    (state lhs = 0 ∧ state rhs ≠ 0 → (key2float state lhs rhs : α) = -1) := by
  refine ⟨?_, ?_, ?_, ?_⟩ <;> rintro ⟨h1, h2⟩ <;> simp [key2float, h1, h2]

/-- C1, amended, at a concrete keyboard: only the second key held gives `-1`. -/
theorem key2float_axis_witness :
    (key2float (fun k => if k = SDL_SCANCODE_RIGHT then 1 else 0)
        SDL_SCANCODE_LEFT SDL_SCANCODE_RIGHT : ℝ) = -1 :=
  (key2float_axis (fun k => if k = SDL_SCANCODE_RIGHT then 1 else 0)
    SDL_SCANCODE_LEFT SDL_SCANCODE_RIGHT).2.2.2 ⟨by decide, by decide⟩

/-- C2: the deadzone step of `process_joystick` treats each of the six stick components on its
own: a component `v` with `|v| < 0.2` becomes `0`, a component with `0.2 ≤ |v|` keeps its value;
and the stick that `process_joystick` leaves behind is this filtered stick. -/
theorem process_joystick_deadzone {α : Type} [LinearOrderedField α] (M : FloatMath α)
    (v : State α) (dt : α) (ticks : Nat) :
    (process_joystick M v dt ticks).m_stick = apply_deadzone v.m_stick ∧
    ((|v.m_stick.dir.x| < 0.2 → (apply_deadzone v.m_stick).dir.x = 0) ∧
      (0.2 ≤ |v.m_stick.dir.x| → (apply_deadzone v.m_stick).dir.x = v.m_stick.dir.x)) ∧
    ((|v.m_stick.dir.y| < 0.2 → (apply_deadzone v.m_stick).dir.y = 0) ∧
      (0.2 ≤ |v.m_stick.dir.y| → (apply_deadzone v.m_stick).dir.y = v.m_stick.dir.y)) ∧
    ((|v.m_stick.dir.z| < 0.2 → (apply_deadzone v.m_stick).dir.z = 0) ∧
      (0.2 ≤ |v.m_stick.dir.z| → (apply_deadzone v.m_stick).dir.z = v.m_stick.dir.z)) ∧
    ((|v.m_stick.rot.x| < 0.2 → (apply_deadzone v.m_stick).rot.x = 0) ∧
      (0.2 ≤ |v.m_stick.rot.x| → (apply_deadzone v.m_stick).rot.x = v.m_stick.rot.x)) ∧
    ((|v.m_stick.rot.y| < 0.2 → (apply_deadzone v.m_stick).rot.y = 0) ∧
      (0.2 ≤ |v.m_stick.rot.y| → (apply_deadzone v.m_stick).rot.y = v.m_stick.rot.y)) ∧
    ((|v.m_stick.rot.z| < 0.2 → (apply_deadzone v.m_stick).rot.z = 0) ∧
      (0.2 ≤ |v.m_stick.rot.z| → (apply_deadzone v.m_stick).rot.z = v.m_stick.rot.z)) := by
  refine ⟨?_, ⟨?_, ?_⟩, ⟨?_, ?_⟩, ⟨?_, ?_⟩, ⟨?_, ?_⟩, ⟨?_, ?_⟩, ⟨?_, ?_⟩⟩
  · simp only [process_joystick, update_menu, update_fps_mode]
    split_ifs <;> rfl
  all_goals
    intro h
    simp [apply_deadzone, h]

/-! ## The pitch of the FPS camera -/

section Pitch

open Real

theorem atan2_polar {r θ : ℝ} (hr : 0 < r) (h1 : -π < θ) (h2 : θ ≤ π) :
    realMath.atan2 (r * Real.sin θ) (r * Real.cos θ) = θ := by
  have h := Complex.arg_mul_cos_add_sin_mul_I hr (show θ ∈ Set.Ioc (-π) π from ⟨h1, h2⟩)
  have e : (⟨r * Real.cos θ, r * Real.sin θ⟩ : ℂ) = (r : ℂ) * (Complex.cos θ + Complex.sin θ * Complex.I) := by
    apply Complex.ext <;> simp [← Complex.ofReal_cos, ← Complex.ofReal_sin]
  show Complex.arg ⟨r * Real.cos θ, r * Real.sin θ⟩ = θ
  rw [e, h]

theorem fps_pitch_bounds (v : State ℝ) (dt : ℝ) :
    -(π / 2) + 0.001 ≤ fps_pitch realMath v dt ∧ fps_pitch realMath v dt ≤ π / 2 - 0.001 := by
  have hpi : (3 : ℝ) < π := Real.pi_gt_three
  simp only [fps_pitch, clamp, half_pi, realMath]
  constructor
  · apply le_min
    · exact le_max_right _ _
    · linarith
  · exact min_le_right _ _

theorem look_at_length_pos (la : Vec3 ℝ) (h : la ≠ ⟨0, 0, 0⟩) : 0 < la.length realMath := by
  show 0 < Real.sqrt (la.x * la.x + la.y * la.y + la.z * la.z)
  apply Real.sqrt_pos.mpr
  obtain ⟨x, y, z⟩ := la
  by_contra hc
  apply h
  have hx := mul_self_nonneg x
  have hy := mul_self_nonneg y
  have hz := mul_self_nonneg z
  simp only at hc
  have h0 : x * x = 0 ∧ y * y = 0 ∧ z * z = 0 := ⟨by linarith, by linarith, by linarith⟩
  simp only [mul_self_eq_zero] at h0
  simp [h0.1, h0.2.1, h0.2.2]

theorem update_fps_mode_look_at (v : State ℝ) (dt : ℝ) :
    (update_fps_mode realMath v dt).m_cfg.m_look_at =
      ⟨Real.cos (fps_pitch realMath v dt) * Real.cos (fps_yaw realMath v dt) * v.m_cfg.m_look_at.length realMath,
       Real.sin (fps_pitch realMath v dt) * v.m_cfg.m_look_at.length realMath,
       Real.cos (fps_pitch realMath v dt) * Real.sin (fps_yaw realMath v dt) * v.m_cfg.m_look_at.length realMath⟩ := rfl

theorem look_at_pitch_update (v : State ℝ) (dt : ℝ) (h : v.m_cfg.m_look_at ≠ ⟨0, 0, 0⟩) :
    look_at_pitch realMath (update_fps_mode realMath v dt).m_cfg.m_look_at = fps_pitch realMath v dt := by
  have hb := fps_pitch_bounds v dt
  have hpi : (3 : ℝ) < π := Real.pi_gt_three
  have hfd := look_at_length_pos _ h
  set p := fps_pitch realMath v dt with hp
  set y := fps_yaw realMath v dt with hy
  set fd := v.m_cfg.m_look_at.length realMath with hfd'
  have hcos : 0 < Real.cos p := Real.cos_pos_of_mem_Ioo ⟨by linarith, by linarith⟩
  rw [update_fps_mode_look_at]
  simp only [look_at_pitch]
  have hs : realMath.sqrt (Real.cos p * Real.cos y * fd * (Real.cos p * Real.cos y * fd) +
      Real.cos p * Real.sin y * fd * (Real.cos p * Real.sin y * fd)) = fd * Real.cos p := by
    show Real.sqrt _ = _
    have : Real.cos p * Real.cos y * fd * (Real.cos p * Real.cos y * fd) +
      Real.cos p * Real.sin y * fd * (Real.cos p * Real.sin y * fd) = (fd * Real.cos p) ^ 2 := by
      have := Real.cos_sq_add_sin_sq y
      linear_combination (fd * Real.cos p) ^ 2 * this
    rw [this, Real.sqrt_sq (by positivity)]
  rw [hs, mul_comm (Real.sin p) fd]
  exact atan2_polar hfd (by linarith) (by linarith)

theorem update_fps_mode_look_at_ne (v : State ℝ) (dt : ℝ) (h : v.m_cfg.m_look_at ≠ ⟨0, 0, 0⟩) :
    (update_fps_mode realMath v dt).m_cfg.m_look_at ≠ ⟨0, 0, 0⟩ := by
  have hb := fps_pitch_bounds v dt
  have hpi : (3 : ℝ) < π := Real.pi_gt_three
  have hfd := look_at_length_pos _ h
  have hcos : 0 < Real.cos (fps_pitch realMath v dt) :=
    Real.cos_pos_of_mem_Ioo ⟨by linarith, by linarith⟩
  rw [update_fps_mode_look_at]
  intro hc
  simp only [Vec3.mk.injEq, mul_eq_zero, hfd.ne', hcos.ne', or_false, false_or] at hc
  have := Real.cos_sq_add_sin_sq (fps_yaw realMath v dt)
  rw [hc.1, hc.2.2] at this
  norm_num at this

theorem fps_run_look_at_ne (inputs : List (Stick ℝ × ℝ)) :
    ∀ v : State ℝ, v.m_cfg.m_look_at ≠ ⟨0, 0, 0⟩ →
      (fps_run realMath v inputs).m_cfg.m_look_at ≠ ⟨0, 0, 0⟩ := by
  induction inputs with
  | nil => intro v h; exact h
  | cons a rest ih =>
    intro v h
    obtain ⟨s, dt⟩ := a
    exact ih _ (update_fps_mode_look_at_ne _ dt h)

/-- C3, counterexample: from a camera looking along the negative z axis, one update with pitch
rate 1 and frame time 1 leaves the pitch exactly at the upper bound `pi/2 - 0.001`, which is not
strictly inside the interval. -/
theorem fps_pitch_reaches_bound_counterexample :
    look_at_pitch realMath
        (update_fps_mode realMath
          { (rest_state : State ℝ) with
            m_stick := { (centred_stick : Stick ℝ) with rot := ⟨1, 0, 0⟩ } } 1).m_cfg.m_look_at
      = π / 2 - 0.001 ∧
    ¬ (look_at_pitch realMath
        (update_fps_mode realMath
          { (rest_state : State ℝ) with
            m_stick := { (centred_stick : Stick ℝ) with rot := ⟨1, 0, 0⟩ } } 1).m_cfg.m_look_at
      < π / 2 - 0.001) := by
  have hpi : π < 4 := Real.pi_lt_four
  have hpi3 : (3 : ℝ) < π := Real.pi_gt_three
  have key : look_at_pitch realMath
        (update_fps_mode realMath
          { (rest_state : State ℝ) with
            m_stick := { (centred_stick : Stick ℝ) with rot := ⟨1, 0, 0⟩ } } 1).m_cfg.m_look_at
      = π / 2 - 0.001 := by
    rw [look_at_pitch_update _ _ (by simp [rest_state])]
    have harg : Complex.arg ⟨1, 0⟩ = 0 := by
      have : (⟨1, 0⟩ : ℂ) = 1 := rfl
      rw [this, Complex.arg_one]
    simp only [fps_pitch, rest_state, centred_stick, clamp, half_pi, realMath]
    norm_num [harg]
    left
    linarith
  exact ⟨key, by rw [key]; exact lt_irrefl _⟩

/-- C3, amended: for every starting camera with non-zero look_at and every finite sequence of
stick inputs and frame times, after each `update_fps_mode` the pitch recovered from the new
look_at, `atan2(look_at.y, sqrt(look_at.x^2 + look_at.z^2))`, is the clamped pitch from which
look_at was rebuilt, and it lies in the closed interval `[-pi/2 + 0.001, pi/2 - 0.001]`. -/
theorem fps_pitch_within_closed_interval (v : State ℝ) (h : v.m_cfg.m_look_at ≠ ⟨0, 0, 0⟩)
    (inputs : List (Stick ℝ × ℝ)) (s : Stick ℝ) (dt : ℝ) :
    look_at_pitch realMath
        (update_fps_mode realMath { fps_run realMath v inputs with m_stick := s } dt).m_cfg.m_look_at
      = fps_pitch realMath { fps_run realMath v inputs with m_stick := s } dt ∧
    -(π / 2) + 0.001 ≤ look_at_pitch realMath
        (update_fps_mode realMath { fps_run realMath v inputs with m_stick := s } dt).m_cfg.m_look_at ∧
    look_at_pitch realMath
        (update_fps_mode realMath { fps_run realMath v inputs with m_stick := s } dt).m_cfg.m_look_at
      ≤ π / 2 - 0.001 := by
  have hne := fps_run_look_at_ne inputs v h
  have e := look_at_pitch_update { fps_run realMath v inputs with m_stick := s } dt hne
  have hb := fps_pitch_bounds { fps_run realMath v inputs with m_stick := s } dt
  rw [e]
  exact ⟨rfl, hb⟩

/-- C3, amended, at a concrete run: two updates from the example camera. -/
theorem fps_pitch_within_closed_interval_witness :
    (rest_state : State ℝ).m_cfg.m_look_at ≠ ⟨0, 0, 0⟩ ∧
    look_at_pitch realMath
        (update_fps_mode realMath
          { fps_run realMath rest_state [({ (centred_stick : Stick ℝ) with rot := ⟨1, 0, 0⟩ }, 1)]
            with m_stick := { (centred_stick : Stick ℝ) with rot := ⟨-1, 1, 0⟩ } }
          (1 / 60)).m_cfg.m_look_at ≤ π / 2 - 0.001 :=
  ⟨by simp [rest_state],
   (fps_pitch_within_closed_interval rest_state (by simp [rest_state])
      [({ (centred_stick : Stick ℝ) with rot := ⟨1, 0, 0⟩ }, 1)]
      { (centred_stick : Stick ℝ) with rot := ⟨-1, 1, 0⟩ } (1 / 60)).2.2⟩

end Pitch

/-! ## Calibration offsets -/

section Offsets

open Real

theorem atan2_neg_axis {y : ℝ} (hy : 0 < y) : realMath.atan2 (-y) 0 = -(π / 2) := by
  have h := atan2_polar (θ := -(π / 2)) hy (by linarith [Real.pi_pos]) (by linarith [Real.pi_pos])
  simpa using h

theorem atan2_pos_axis {y : ℝ} (hy : 0 < y) : realMath.atan2 y 0 = π / 2 := by
  have h := atan2_polar (θ := π / 2) hy (by linarith [Real.pi_pos]) (by linarith [Real.pi_pos])
  simpa using h

/-- When the two points differ in `x`, `update_offsets` does the same whichever comes first. -/
theorem update_offsets_swap_of_ne {α : Type} [LinearOrderedField α] (M : FloatMath α)
    (v : State α) (a b : Vec2 α) (h : a.x ≠ b.x) :
    update_offsets M v a b = update_offsets M v b a := by
  rcases lt_or_gt_of_ne h with h1 | h1
  · simp [update_offsets, h1, not_lt.mpr h1.le]
  · simp [update_offsets, h1, not_lt.mpr (le_of_lt h1)]

/-- C4, evaluation at the failing input: for the points `A = (612, 184)` and `B = (612, 384)`,
which have equal `x`, `update_offsets(A, B)` stores roll `-pi/2`, yaw `-(100/1024) * pi/2` and
pitch `-(100/768) * pi/2`, while `update_offsets(B, A)` stores roll `pi/2`, yaw
`(100/1024) * pi/2` and pitch `(100/768) * pi/2`: the roll magnitude agrees, the yaw and pitch
offsets do not. -/
theorem update_offsets_equal_x_order_dependent :
    (update_offsets realMath rest_state ⟨612, 184⟩ ⟨612, 384⟩).m_cfg.m_roll_offset = -(π / 2) ∧
    (update_offsets realMath rest_state ⟨612, 384⟩ ⟨612, 184⟩).m_cfg.m_roll_offset = π / 2 ∧
    (update_offsets realMath rest_state ⟨612, 184⟩ ⟨612, 384⟩).m_cfg.m_yaw_offset
      = -(100 / 1024) * (π / 2) ∧
    (update_offsets realMath rest_state ⟨612, 384⟩ ⟨612, 184⟩).m_cfg.m_yaw_offset
      = (100 / 1024) * (π / 2) ∧
    (update_offsets realMath rest_state ⟨612, 184⟩ ⟨612, 384⟩).m_cfg.m_pitch_offset
      = -(100 / 768) * (π / 2) ∧
    (update_offsets realMath rest_state ⟨612, 384⟩ ⟨612, 184⟩).m_cfg.m_pitch_offset
      = (100 / 768) * (π / 2) ∧
    (update_offsets realMath rest_state ⟨612, 184⟩ ⟨612, 384⟩).m_cfg.m_yaw_offset ≠
      (update_offsets realMath rest_state ⟨612, 384⟩ ⟨612, 184⟩).m_cfg.m_yaw_offset ∧
    (update_offsets realMath rest_state ⟨612, 184⟩ ⟨612, 384⟩).m_cfg.m_pitch_offset ≠
      (update_offsets realMath rest_state ⟨612, 384⟩ ⟨612, 184⟩).m_cfg.m_pitch_offset := by
  have hpi := Real.pi_pos
  have e1 : realMath.atan2 (-(384 - 184)) (612 - 612) = -(π / 2) := by
    rw [sub_self]; exact atan2_neg_axis (by norm_num)
  have e2 : realMath.atan2 (-(184 - 384)) (612 - 612) = π / 2 := by
    rw [sub_self, neg_sub]; exact atan2_pos_axis (by norm_num)
  have r1 : (update_offsets realMath rest_state ⟨612, 184⟩ ⟨612, 384⟩).m_cfg.m_roll_offset
      = -(π / 2) := by
    simp only [update_offsets, Vec2.sub, lt_irrefl, gt_iff_lt, if_false]
    exact e1
  have r2 : (update_offsets realMath rest_state ⟨612, 384⟩ ⟨612, 184⟩).m_cfg.m_roll_offset
      = π / 2 := by
    simp only [update_offsets, Vec2.sub, lt_irrefl, gt_iff_lt, if_false]
    exact e2
  have y1 : (update_offsets realMath rest_state ⟨612, 184⟩ ⟨612, 384⟩).m_cfg.m_yaw_offset
      = -(100 / 1024) * (π / 2) := by
    simp only [update_offsets, Vec2.sub, Vec2.add, Vec2.div, Vec2.rotate, lt_irrefl, gt_iff_lt,
      if_false, e1, half_pi, rest_state]
    simp only [realMath, Real.cos_neg, Real.sin_neg, Real.cos_pi_div_two, Real.sin_pi_div_two]
    norm_num
  have y2 : (update_offsets realMath rest_state ⟨612, 384⟩ ⟨612, 184⟩).m_cfg.m_yaw_offset
      = (100 / 1024) * (π / 2) := by
    simp only [update_offsets, Vec2.sub, Vec2.add, Vec2.div, Vec2.rotate, lt_irrefl, gt_iff_lt,
      if_false, e2, half_pi, rest_state]
    simp only [realMath, Real.cos_pi_div_two, Real.sin_pi_div_two]
    norm_num
  have p1 : (update_offsets realMath rest_state ⟨612, 184⟩ ⟨612, 384⟩).m_cfg.m_pitch_offset
      = -(100 / 768) * (π / 2) := by
    simp only [update_offsets, Vec2.sub, Vec2.add, Vec2.div, Vec2.rotate, lt_irrefl, gt_iff_lt,
      if_false, e1, half_pi, rest_state]
    simp only [realMath, Real.cos_neg, Real.sin_neg, Real.cos_pi_div_two, Real.sin_pi_div_two]
    norm_num
  have p2 : (update_offsets realMath rest_state ⟨612, 384⟩ ⟨612, 184⟩).m_cfg.m_pitch_offset
      = (100 / 768) * (π / 2) := by
    simp only [update_offsets, Vec2.sub, Vec2.add, Vec2.div, Vec2.rotate, lt_irrefl, gt_iff_lt,
      if_false, e2, half_pi, rest_state]
    simp only [realMath, Real.cos_pi_div_two, Real.sin_pi_div_two]
    norm_num
  refine ⟨r1, r2, y1, y2, p1, p2, ?_, ?_⟩
  · rw [y1, y2]; intro h; nlinarith
  · rw [p1, p2]; intro h; nlinarith

end Offsets

/-! ## Field-of-view keys -/

section Fov

open Real

/-- In the branch of `F1` and `F2` that rescales, the new `eye.z` is
`old_eye_z * tan(old_fov / 2) / tan(new_fov / 2)`. -/
theorem fov_rescale_eye_z (cfg : Config ℝ) :
    (cfg.m_fov + radians realMath 1 < radians realMath 160 →
      (on_keyboard_event realMath cfg .F1).m_fov = cfg.m_fov + radians realMath 1 ∧
      (on_keyboard_event realMath cfg .F1).m_eye.z =
        cfg.m_eye.z * Real.tan (cfg.m_fov / 2) /
          Real.tan ((on_keyboard_event realMath cfg .F1).m_fov / 2)) ∧
    (7 ≤ cfg.m_fov - 1 →
      (on_keyboard_event realMath cfg .F2).m_fov = cfg.m_fov - 1 ∧
      (on_keyboard_event realMath cfg .F2).m_eye.z =
        cfg.m_eye.z * Real.tan (cfg.m_fov / 2) /
          Real.tan ((on_keyboard_event realMath cfg .F2).m_fov / 2)) := by
  constructor
  · intro h
    simp only [on_keyboard_event, h, if_true, true_and]
    show cfg.m_eye.z * (2 * Real.tan (0.5 * cfg.m_fov)) / (2 * Real.tan (0.5 * _)) = _
    rw [show (0.5 : ℝ) * cfg.m_fov = cfg.m_fov / 2 by ring,
      show (0.5 : ℝ) * (cfg.m_fov + radians realMath 1) = (cfg.m_fov + radians realMath 1) / 2 by ring,
      ← mul_assoc, mul_comm cfg.m_eye.z 2, mul_assoc, mul_div_mul_left _ _ (two_ne_zero)]
  · intro h
    simp only [on_keyboard_event, ge_iff_le, h, if_true, true_and]
    show cfg.m_eye.z * (2 * Real.tan (0.5 * cfg.m_fov)) / (2 * Real.tan (0.5 * _)) = _
    rw [show (0.5 : ℝ) * cfg.m_fov = cfg.m_fov / 2 by ring,
      show (0.5 : ℝ) * (cfg.m_fov - 1) = (cfg.m_fov - 1) / 2 by ring,
      ← mul_assoc, mul_comm cfg.m_eye.z 2, mul_assoc, mul_div_mul_left _ _ (two_ne_zero)]

/-- C5, evaluation at the failing input: from a field of view of 1 radian and `eye.z = 1`, the
key `F1` followed by the key `F2` ends with field of view `7` and
`eye.z = tan(1/2) / tan((1 + pi/180)/2)`; neither is the value before the two keys. -/
theorem fov_increment_then_decrement_not_restored :
    (on_keyboard_event realMath (on_keyboard_event realMath (rest_state : State ℝ).m_cfg .F1)
        .F2).m_fov = 7 ∧
    (on_keyboard_event realMath (on_keyboard_event realMath (rest_state : State ℝ).m_cfg .F1)
        .F2).m_eye.z = Real.tan (1 / 2) / Real.tan ((1 + π / 180) / 2) ∧
    (on_keyboard_event realMath (on_keyboard_event realMath (rest_state : State ℝ).m_cfg .F1)
        .F2).m_fov ≠ (rest_state : State ℝ).m_cfg.m_fov ∧
    (on_keyboard_event realMath (on_keyboard_event realMath (rest_state : State ℝ).m_cfg .F1)
        .F2).m_eye.z ≠ (rest_state : State ℝ).m_cfg.m_eye.z := by
  have hpi3 : (3 : ℝ) < π := Real.pi_gt_three
  have hpi4 : π < 4 := Real.pi_lt_four
  have h1 : (1 : ℝ) + radians realMath 1 < radians realMath 160 := by
    simp only [radians, realMath]; linarith
  have h2 : ¬ ((1 : ℝ) + radians realMath 1 - 1 ≥ 7) := by
    simp only [radians, realMath]; intro h; linarith
  have hfov : (on_keyboard_event realMath
      (on_keyboard_event realMath (rest_state : State ℝ).m_cfg .F1) .F2).m_fov = 7 := by
    simp only [on_keyboard_event, rest_state, h1, h2, if_true, if_false]
  have hz : (on_keyboard_event realMath
      (on_keyboard_event realMath (rest_state : State ℝ).m_cfg .F1) .F2).m_eye.z
      = Real.tan (1 / 2) / Real.tan ((1 + π / 180) / 2) := by
    simp only [on_keyboard_event, rest_state, h1, h2, if_true, if_false]
    simp only [radians, realMath]
    rw [one_mul, mul_div_mul_left _ _ (two_ne_zero)]
    norm_num
    rw [show (1 : ℝ) / 2 * (1 + π / 180) = (1 + π / 180) / 2 by ring]
  have hlt : Real.tan (1 / 2) < Real.tan ((1 + π / 180) / 2) :=
    Real.tan_lt_tan_of_lt_of_lt_pi_div_two (by linarith) (by linarith) (by linarith)
  have hpos : 0 < Real.tan ((1 + π / 180) / 2) :=
    Real.tan_pos_of_pos_of_lt_pi_div_two (by linarith) (by linarith)
  refine ⟨hfov, hz, ?_, ?_⟩
  · rw [hfov]; norm_num [rest_state]
  · rw [hz]
    have : Real.tan (1 / 2) / Real.tan ((1 + π / 180) / 2) < 1 := (div_lt_one hpos).mpr hlt
    simp only [rest_state]
    exact ne_of_lt this

/-- C6, evaluation at the failing inputs: a field of view of 1 radian lies within
`[7 degrees, 160 degrees]`, and the key `F2` sets it to `7`, above 160 degrees; a field of view
of 159.5 degrees lies within the range, and the key `F1` sets it to `160`, above 160 degrees. -/
theorem fov_keys_leave_range :
    (radians realMath 7 ≤ (rest_state : State ℝ).m_cfg.m_fov ∧
      (rest_state : State ℝ).m_cfg.m_fov ≤ radians realMath 160 ∧
      (on_keyboard_event realMath (rest_state : State ℝ).m_cfg .F2).m_fov = 7 ∧
      radians realMath 160 < (on_keyboard_event realMath (rest_state : State ℝ).m_cfg .F2).m_fov) ∧
    (radians realMath 7 ≤ radians realMath 159.5 ∧
      radians realMath 159.5 ≤ radians realMath 160 ∧
      (on_keyboard_event realMath
        { (rest_state : State ℝ).m_cfg with m_fov := radians realMath 159.5 } .F1).m_fov = 160 ∧
      radians realMath 160 < (on_keyboard_event realMath
        { (rest_state : State ℝ).m_cfg with m_fov := radians realMath 159.5 } .F1).m_fov) := by
  have hpi3 : (3 : ℝ) < π := Real.pi_gt_three
  have hpi4 : π < 4 := Real.pi_lt_four
  have h2 : ¬ ((1 : ℝ) - 1 ≥ 7) := by norm_num
  have hF2 : (on_keyboard_event realMath (rest_state : State ℝ).m_cfg .F2).m_fov = 7 := by
    simp only [on_keyboard_event, rest_state, h2, if_false]
  have h1 : ¬ (radians realMath 159.5 + radians realMath 1 < radians realMath 160) := by
    simp only [radians, realMath]; intro h; linarith
  have hF1 : (on_keyboard_event realMath
      { (rest_state : State ℝ).m_cfg with m_fov := radians realMath 159.5 } .F1).m_fov = 160 := by
    simp only [on_keyboard_event, h1, if_false]
  refine ⟨⟨?_, ?_, hF2, ?_⟩, ?_, ?_, hF1, ?_⟩
  · simp only [radians, realMath, rest_state]; linarith
  · simp only [radians, realMath, rest_state]; linarith
  · rw [hF2]; simp only [radians, realMath]; linarith
  · simp only [radians, realMath]; linarith
  · simp only [radians, realMath]; linarith
  · rw [hF1]; simp only [radians, realMath]; linarith

end Fov

/-! ## Directional-pad autorepeat -/

section Autorepeat

theorem process_event_not_dpad {α : Type} [LinearOrderedField α] (M : FloatMath α) (v : State α) (e : Event) (t : Nat)
    (h : e.is_dpad = false) :
    (process_event M v e t).m_stick.hat = v.m_stick.hat ∧
    (process_event M v e t).m_old_stick = v.m_old_stick ∧
    (process_event M v e t).m_hat_autorepeat = v.m_hat_autorepeat ∧
    (process_event M v e t).m_menu = v.m_menu := by
  cases e with
  | KEYDOWN key => exact ⟨rfl, rfl, rfl, rfl⟩
  | MOUSEWHEEL y => exact ⟨rfl, rfl, rfl, rfl⟩
  | CONTROLLERAXISMOTION axis value l r => cases axis <;> exact ⟨rfl, rfl, rfl, rfl⟩
  | CONTROLLERBUTTON button state =>
    cases button <;>
      first
        | exact ⟨rfl, rfl, rfl, rfl⟩
        | (simp only [process_event]; split_ifs <;> exact ⟨rfl, rfl, rfl, rfl⟩)
        | exact absurd h (by simp [Event.is_dpad, Button.is_dpad])
  | other => exact ⟨rfl, rfl, rfl, rfl⟩

theorem process_events_not_dpad {α : Type} [LinearOrderedField α] (M : FloatMath α) (evs : List (Event × Nat)) :
    ∀ v : State α, (∀ e ∈ evs, e.1.is_dpad = false) →
      (process_events M v evs).m_stick.hat = v.m_stick.hat ∧
      (process_events M v evs).m_old_stick = v.m_old_stick ∧
      (process_events M v evs).m_hat_autorepeat = v.m_hat_autorepeat ∧
      (process_events M v evs).m_menu = v.m_menu := by
  induction evs with
  | nil => intro v _; exact ⟨rfl, rfl, rfl, rfl⟩
  | cons e rest ih =>
    intro v h
    have h1 := process_event_not_dpad M v e.1 e.2 (h e (List.mem_cons_self _ _))
    have h2 := ih (process_event M v e.1 e.2) (fun x hx => h x (List.mem_cons_of_mem _ hx))
    simp only [process_events, List.foldl_cons] at h2 ⊢
    exact ⟨h2.1.trans h1.1, h2.2.1.trans h1.2.1, h2.2.2.1.trans h1.2.2.1,
      h2.2.2.2.trans h1.2.2.2⟩

theorem process_events_append {α : Type} [LinearOrderedField α] (M : FloatMath α) (v : State α) (a b : List (Event × Nat)) :
    process_events M v (a ++ b) = process_events M (process_events M v a) b := by
  simp [process_events, List.foldl_append]

theorem process_event_press {α : Type} [LinearOrderedField α] (M : FloatMath α) (v : State α) (b : Button) (t : Nat)
    (hb : b.is_dpad = true) :
    (process_event M v (.CONTROLLERBUTTON b 1) t).m_stick.hat = v.m_stick.hat ||| b.hat_bit ∧
    (process_event M v (.CONTROLLERBUTTON b 1) t).m_old_stick = v.m_old_stick ∧
    (process_event M v (.CONTROLLERBUTTON b 1) t).m_hat_autorepeat = u32 (t + 500) ∧
    (process_event M v (.CONTROLLERBUTTON b 1) t).m_menu = v.m_menu := by
  cases b <;> simp [Button.is_dpad] at hb <;> exact ⟨rfl, rfl, rfl, rfl⟩

theorem update_menu_fire {α : Type} (v : State α) (t : Nat)
    (h : v.m_stick.hat ≠ v.m_old_stick.hat ∨ (v.m_stick.hat ≠ 0 ∧ v.m_hat_autorepeat < t)) :
    (update_menu v t).m_menu = v.m_menu ++ hat_calls v.m_stick.hat ∧
    (update_menu v t).m_hat_autorepeat
      = if v.m_hat_autorepeat < t then u32 (t + 100 + u32_sub v.m_hat_autorepeat t)
        else v.m_hat_autorepeat := by
  unfold update_menu
  rw [if_pos h]
  by_cases h2 : v.m_hat_autorepeat < t
  · simp [h2]
  · simp [h2]

theorem update_menu_quiet {α : Type} (v : State α) (t : Nat)
    (h : ¬ (v.m_stick.hat ≠ v.m_old_stick.hat ∨ (v.m_stick.hat ≠ 0 ∧ v.m_hat_autorepeat < t))) :
    update_menu v t = v := by
  unfold update_menu
  rw [if_neg h]

theorem update_menu_stick {α : Type} (v : State α) (t : Nat) :
    (update_menu v t).m_stick = v.m_stick := by
  unfold update_menu
  split_ifs <;> rfl

theorem process_joystick_hat {α : Type} [LinearOrderedField α] (M : FloatMath α) (v : State α) (dt : α) (t : Nat) :
    (process_joystick M v dt t).m_stick.hat = v.m_stick.hat ∧
    (process_joystick M v dt t).m_old_stick.hat = v.m_stick.hat ∧
    (process_joystick M v dt t).m_menu
      = (update_menu { v with m_stick := apply_deadzone v.m_stick } t).m_menu ∧
    (process_joystick M v dt t).m_hat_autorepeat
      = (update_menu { v with m_stick := apply_deadzone v.m_stick } t).m_hat_autorepeat := by
  have hs := update_menu_stick { v with m_stick := apply_deadzone v.m_stick } t
  unfold process_joystick
  dsimp only
  split_ifs
  · refine ⟨?_, ?_, rfl, rfl⟩
    · show (update_menu _ t).m_stick.hat = _
      rw [hs]; rfl
    · show (update_menu _ t).m_stick.hat = _
      rw [hs]; rfl
  · refine ⟨?_, ?_, rfl, rfl⟩
    · show (update_menu _ t).m_stick.hat = _
      rw [hs]; rfl
    · show (update_menu _ t).m_stick.hat = _
      rw [hs]; rfl

/-- What `process_joystick` followed by `process_keyboard` does to the hat, the timer and the
menu: they are those of `update_menu`, and the old stick takes the hat of the stick. -/
theorem joystick_keyboard_hat {α : Type} [LinearOrderedField α] (M : FloatMath α) (v : State α) (dt : α) (t : Nat)
    (keys : Nat → Nat) :
    (process_keyboard (process_joystick M v dt t) keys).m_stick.hat = v.m_stick.hat ∧
    (process_keyboard (process_joystick M v dt t) keys).m_old_stick.hat = v.m_stick.hat ∧
    ((v.m_stick.hat ≠ v.m_old_stick.hat ∨ (v.m_stick.hat ≠ 0 ∧ v.m_hat_autorepeat < t)) →
      (process_keyboard (process_joystick M v dt t) keys).m_menu
        = v.m_menu ++ hat_calls v.m_stick.hat ∧
      (process_keyboard (process_joystick M v dt t) keys).m_hat_autorepeat
        = if v.m_hat_autorepeat < t then u32 (t + 100 + u32_sub v.m_hat_autorepeat t)
          else v.m_hat_autorepeat) ∧
    (¬ (v.m_stick.hat ≠ v.m_old_stick.hat ∨ (v.m_stick.hat ≠ 0 ∧ v.m_hat_autorepeat < t)) →
      (process_keyboard (process_joystick M v dt t) keys).m_menu = v.m_menu ∧
      (process_keyboard (process_joystick M v dt t) keys).m_hat_autorepeat
        = v.m_hat_autorepeat) := by
  obtain ⟨h1, h2, h3, h4⟩ := process_joystick_hat M v dt t
  refine ⟨h1, h2, ?_, ?_⟩
  · intro h
    have hf := update_menu_fire { v with m_stick := apply_deadzone v.m_stick } t h
    exact ⟨h3.trans hf.1, h4.trans hf.2⟩
  · intro h
    have hq := update_menu_quiet { v with m_stick := apply_deadzone v.m_stick } t h
    refine ⟨h3.trans ?_, h4.trans ?_⟩
    · rw [hq]
    · rw [hq]

theorem or_bit_and_bit (hat bit : Nat) : (hat ||| bit) &&& bit = bit := by
  apply Nat.eq_of_testBit_eq
  intro i
  simp only [Nat.testBit_and, Nat.testBit_or]
  cases hat.testBit i <;> cases bit.testBit i <;> rfl

theorem hat_bit_ne_zero (b : Button) (hb : b.is_dpad = true) : b.hat_bit ≠ 0 := by
  cases b <;> simp [Button.is_dpad] at hb <;> decide

theorem or_bit_ne (hat bit : Nat) (h : hat &&& bit = 0) (hbit : bit ≠ 0) :
    hat ||| bit ≠ hat ∧ hat ||| bit ≠ 0 := by
  have e := or_bit_and_bit hat bit
  constructor
  · intro hc
    rw [hc, h] at e
    exact hbit e.symm
  · intro hc
    rw [hc] at e
    simp at e
    exact hbit e.symm

theorem hat_calls_ne_nil (hat : Nat) (b : Button) (hb : b.is_dpad = true) :
    hat_calls (hat ||| b.hat_bit) ≠ [] := by
  have e := or_bit_and_bit hat b.hat_bit
  have hne := hat_bit_ne_zero b hb
  cases b <;> simp [Button.is_dpad] at hb <;>
    simp only [Button.hat_bit] at e hne ⊢ <;> simp [hat_calls, e, hne]

/-- A pass of the loop without directional-pad events while the hat is held: an action fires
exactly when the deadline lies before the tick, and the deadline then moves on by 100. -/
theorem main_loop_step_held {α : Type} [LinearOrderedField α] (M : FloatMath α) (s : State α)
    (f : Frame α) (h d : Nat) (hev : ∀ e ∈ f.events, e.1.is_dpad = false)
    (hh : s.m_stick.hat = h) (hoh : s.m_old_stick.hat = h) (hne : h ≠ 0)
    (hd : s.m_hat_autorepeat = d) (hb : f.ticks + 100 < 2 ^ 32) :
    (main_loop_step M s f).m_stick.hat = h ∧
    (main_loop_step M s f).m_old_stick.hat = h ∧
    (d < f.ticks → (main_loop_step M s f).m_menu = s.m_menu ++ hat_calls h ∧
      (main_loop_step M s f).m_hat_autorepeat = d + 100) ∧
    (f.ticks ≤ d → (main_loop_step M s f).m_menu = s.m_menu ∧
      (main_loop_step M s f).m_hat_autorepeat = d) := by
  obtain ⟨e1, e2, e3, e4⟩ := process_events_not_dpad M f.events s hev
  obtain ⟨j1, j2, j3, j4⟩ :=
    joystick_keyboard_hat M (process_events M s f.events) f.dt f.ticks f.keys
  rw [e1, e2, e3, e4, hh, hoh, hd] at j3 j4
  rw [e1, hh] at j1 j2
  refine ⟨j1, j2, ?_, ?_⟩
  · intro hlt
    obtain ⟨k1, k2⟩ := j3 (Or.inr ⟨hne, hlt⟩)
    refine ⟨k1, ?_⟩
    rw [main_loop_step, k2, if_pos hlt]
    simp only [u32, u32_sub]
    omega
  · intro hle
    exact j4 (by
      rintro (hc | ⟨_, hc⟩)
      · exact hc rfl
      · omega)

/-- The pass of the loop in which the button is pressed: the action fires once; the deadline
stays at `t0 + 500` when the tick of the pass is not later than that, and is moved on to
`t0 + 600` when it is. -/
theorem main_loop_step_press {α : Type} [LinearOrderedField α] (M : FloatMath α) (v : State α)
    (b : Button) (t0 : Nat) (pre post : List (Event × Nat)) (dt : α) (t1 : Nat)
    (keys : Nat → Nat) (hb : b.is_dpad = true)
    (hold : v.m_old_stick.hat = v.m_stick.hat) (hfree : v.m_stick.hat &&& b.hat_bit = 0)
    (hpre : ∀ e ∈ pre, e.1.is_dpad = false) (hpost : ∀ e ∈ post, e.1.is_dpad = false)
    (ht0 : t0 + 500 < 2 ^ 32) (ht1 : t0 + 500 < t1 → t1 + 100 < 2 ^ 32) :
    (main_loop_step M v ⟨pre ++ (Event.CONTROLLERBUTTON b 1, t0) :: post, dt, t1, keys⟩).m_stick.hat
      = v.m_stick.hat ||| b.hat_bit ∧
    (main_loop_step M v
      ⟨pre ++ (Event.CONTROLLERBUTTON b 1, t0) :: post, dt, t1, keys⟩).m_old_stick.hat
      = v.m_stick.hat ||| b.hat_bit ∧
    (main_loop_step M v
      ⟨pre ++ (Event.CONTROLLERBUTTON b 1, t0) :: post, dt, t1, keys⟩).m_hat_autorepeat
      = (if t1 ≤ t0 + 500 then t0 + 500 else t0 + 600) ∧
    (main_loop_step M v ⟨pre ++ (Event.CONTROLLERBUTTON b 1, t0) :: post, dt, t1, keys⟩).m_menu
      = v.m_menu ++ hat_calls (v.m_stick.hat ||| b.hat_bit) := by
  obtain ⟨a1, a2, a3, a4⟩ := process_events_not_dpad M pre v hpre
  obtain ⟨b1, b2, b3, b4⟩ :=
    process_event_press M (process_events M v pre) b t0 hb
  obtain ⟨c1, c2, c3, c4⟩ := process_events_not_dpad M post
    (process_event M (process_events M v pre) (.CONTROLLERBUTTON b 1) t0) hpost
  have hev : process_events M v (pre ++ (Event.CONTROLLERBUTTON b 1, t0) :: post) =
      process_events M (process_event M (process_events M v pre) (.CONTROLLERBUTTON b 1) t0)
        post := by
    rw [process_events_append]; rfl
  obtain ⟨hn1, hn2⟩ := or_bit_ne v.m_stick.hat b.hat_bit hfree (hat_bit_ne_zero b hb)
  have hstep : main_loop_step M v ⟨pre ++ (Event.CONTROLLERBUTTON b 1, t0) :: post, dt, t1, keys⟩ =
      process_keyboard (process_joystick M
        (process_events M (process_event M (process_events M v pre) (.CONTROLLERBUTTON b 1) t0)
          post) dt t1) keys := by
    rw [main_loop_step, hev]
  obtain ⟨j1, j2, j3, -⟩ := joystick_keyboard_hat M
    (process_events M (process_event M (process_events M v pre) (.CONTROLLERBUTTON b 1) t0)
      post) dt t1 keys
  rw [c1, b1, a1] at j1 j2
  rw [c1, b1, a1, c2, b2, a2, c3, b3, c4, b4, a4, hold] at j3
  obtain ⟨k1, k2⟩ := j3 (Or.inl hn1)
  have hu : u32 (t0 + 500) = t0 + 500 := by simp only [u32]; omega
  rw [hstep]
  refine ⟨j1, j2, ?_, k1⟩
  rw [k2, hu]
  by_cases hle : t1 ≤ t0 + 500
  · rw [if_neg (by omega), if_pos hle]
  · have hlt : t0 + 500 < t1 := by omega
    have hb1 := ht1 hlt
    rw [if_pos hlt, if_neg hle]
    simp only [u32, u32_sub]
    omega

/-- While the button stays held, after any number of passes the menu holds `n + 1` actions since
the press and the deadline is `t0 + 500 + 100 * n`, for some `n`; and `n` stays as it was
when no pass had a tick beyond the deadline. -/
theorem main_loop_steps_held {α : Type} [LinearOrderedField α] (M : FloatMath α) (h t0 : Nat)
    (log : List MenuCall) (hne : h ≠ 0) (fs : List (Frame α)) :
    ∀ (s : State α) (n : Nat),
      (∀ f ∈ fs, (∀ e ∈ f.events, e.1.is_dpad = false) ∧ f.ticks + 100 < 2 ^ 32) →
      s.m_stick.hat = h → s.m_old_stick.hat = h →
      s.m_hat_autorepeat = t0 + 500 + 100 * n →
      s.m_menu = log ++ repeated (hat_calls h) (n + 1) →
      ∃ m, n ≤ m ∧
        (main_loop_steps M s fs).m_stick.hat = h ∧
        (main_loop_steps M s fs).m_old_stick.hat = h ∧
        (main_loop_steps M s fs).m_hat_autorepeat = t0 + 500 + 100 * m ∧
        (main_loop_steps M s fs).m_menu = log ++ repeated (hat_calls h) (m + 1) ∧
        ((∀ f ∈ fs, f.ticks ≤ t0 + 500 + 100 * n) → m = n) := by
  induction fs with
  | nil =>
    intro s n _ h1 h2 h3 h4
    exact ⟨n, le_refl _, h1, h2, h3, h4, fun _ => rfl⟩
  | cons f rest ih =>
    intro s n hfs h1 h2 h3 h4
    obtain ⟨hev, hbd⟩ := hfs f (List.mem_cons_self _ _)
    have hrest : ∀ g ∈ rest, (∀ e ∈ g.events, e.1.is_dpad = false) ∧ g.ticks + 100 < 2 ^ 32 :=
      fun g hg => hfs g (List.mem_cons_of_mem _ hg)
    obtain ⟨k1, k2, k3, k4⟩ := main_loop_step_held M s f h _ hev h1 h2 hne h3 hbd
    have hstep : main_loop_steps M s (f :: rest) = main_loop_steps M (main_loop_step M s f) rest :=
      rfl
    rw [hstep]
    by_cases hlt : t0 + 500 + 100 * n < f.ticks
    · obtain ⟨q1, q2⟩ := k3 hlt
      obtain ⟨m, hm, r1, r2, r3, r4, -⟩ := ih (main_loop_step M s f) (n + 1) hrest k1 k2
        (by rw [q2]; ring) (by rw [q1, h4, List.append_assoc]; rfl)
      refine ⟨m, by omega, r1, r2, r3, r4, ?_⟩
      intro hall
      have := hall f (List.mem_cons_self _ _)
      omega
    · obtain ⟨q1, q2⟩ := k4 (by omega)
      obtain ⟨m, hm, r1, r2, r3, r4, r5⟩ := ih (main_loop_step M s f) n hrest k1 k2
        (by rw [q2]) (by rw [q1, h4])
      exact ⟨m, hm, r1, r2, r3, r4, fun hall => r5 (fun g hg => hall g (List.mem_cons_of_mem _ hg))⟩

theorem main_loop_steps_snoc {α : Type} [LinearOrderedField α] (M : FloatMath α) (v : State α)
    (fs : List (Frame α)) (g : Frame α) :
    main_loop_steps M v (fs ++ [g]) = main_loop_step M (main_loop_steps M v fs) g := by
  simp [main_loop_steps, List.foldl_append]

/-- C7, counterexample: the button is pressed at tick 0, the first pass of the loop after the
press reads tick 501 and the next pass reads tick 550.  The first pass fires one action and
moves the deadline to 600; the pass at tick 550, the first later pass whose tick is beyond
`t0 + 500`, fires none and leaves the deadline at 600. -/
theorem dpad_late_first_frame_counterexample :
    (main_loop_steps realMath rest_state
      [⟨[(Event.CONTROLLERBUTTON .DPAD_UP 1, 0)], 1 / 60, 501, fun _ => 0⟩]).m_menu
      = [MenuCall.up] ∧
    (main_loop_steps realMath rest_state
      [⟨[(Event.CONTROLLERBUTTON .DPAD_UP 1, 0)], 1 / 60, 501, fun _ => 0⟩]).m_hat_autorepeat
      = 600 ∧
    (main_loop_steps realMath rest_state
      [⟨[(Event.CONTROLLERBUTTON .DPAD_UP 1, 0)], 1 / 60, 501, fun _ => 0⟩,
       ⟨[], 1 / 60, 550, fun _ => 0⟩]).m_menu
      = [MenuCall.up] ∧
    (main_loop_steps realMath rest_state
      [⟨[(Event.CONTROLLERBUTTON .DPAD_UP 1, 0)], 1 / 60, 501, fun _ => 0⟩,
       ⟨[], 1 / 60, 550, fun _ => 0⟩]).m_hat_autorepeat
      = 600 := by
  refine ⟨?_, ?_, ?_, ?_⟩
  · rfl
  · rfl
  · rfl
  · rfl

/-- C7, amended: a directional-pad button that was not held is pressed at tick `t0` (no wrap of
the 32-bit tick counter up to `t0 + 500` and in the ticks that follow), and no other
directional-pad event follows.  The pass of the loop that handles the press fires the menu
action once and leaves the deadline at `d0`, which is `t0 + 500` when that pass reads a tick
not later than `t0 + 500`, and `t0 + 600` for every later tick.  After any further passes `fs`
the menu holds `n + 1` actions since the press and the deadline is `d0 + 100 * n`, for some
`n`, and the next pass `g` fires one more action exactly when its tick is beyond that deadline,
which then moves on by 100; no later pass with a tick up to `t0 + 500`, or up to `d0`, fires;
and the first later pass with a tick beyond `d0` fires the second action and moves the deadline
to `d0 + 100`. -/
theorem dpad_autorepeat {α : Type} [LinearOrderedField α] (M : FloatMath α) (v : State α)
    (b : Button) (t0 : Nat) (pre post : List (Event × Nat)) (f1 : Frame α)
    (fs : List (Frame α)) (g : Frame α)
    (hb : b.is_dpad = true)
    (hold : v.m_old_stick.hat = v.m_stick.hat)
    (hfree : v.m_stick.hat &&& b.hat_bit = 0)
    (hf1 : f1.events = pre ++ (Event.CONTROLLERBUTTON b 1, t0) :: post)
    (hpre : ∀ e ∈ pre, e.1.is_dpad = false) (hpost : ∀ e ∈ post, e.1.is_dpad = false)
    (hfs : ∀ f ∈ fs ++ [g], (∀ e ∈ f.events, e.1.is_dpad = false) ∧ f.ticks + 100 < 2 ^ 32)
    (ht0 : t0 + 500 < 2 ^ 32) (ht1 : t0 + 500 < f1.ticks → f1.ticks + 100 < 2 ^ 32) :
    hat_calls (v.m_stick.hat ||| b.hat_bit) ≠ [] ∧
    (main_loop_steps M v [f1]).m_menu = v.m_menu ++ hat_calls (v.m_stick.hat ||| b.hat_bit) ∧
    ∃ d0 : Nat,
      (f1.ticks ≤ t0 + 500 → d0 = t0 + 500) ∧
      (t0 + 500 < f1.ticks → d0 = t0 + 600) ∧
      (main_loop_steps M v [f1]).m_hat_autorepeat = d0 ∧
      (∃ n : Nat,
        (main_loop_steps M v (f1 :: fs)).m_menu
          = v.m_menu ++ repeated (hat_calls (v.m_stick.hat ||| b.hat_bit)) (n + 1) ∧
        (main_loop_steps M v (f1 :: fs)).m_hat_autorepeat = d0 + 100 * n ∧
        (g.ticks ≤ d0 + 100 * n →
          (main_loop_steps M v (f1 :: (fs ++ [g]))).m_menu
            = (main_loop_steps M v (f1 :: fs)).m_menu ∧
          (main_loop_steps M v (f1 :: (fs ++ [g]))).m_hat_autorepeat = d0 + 100 * n) ∧
        (d0 + 100 * n < g.ticks →
          (main_loop_steps M v (f1 :: (fs ++ [g]))).m_menu
            = (main_loop_steps M v (f1 :: fs)).m_menu
                ++ hat_calls (v.m_stick.hat ||| b.hat_bit) ∧
          (main_loop_steps M v (f1 :: (fs ++ [g]))).m_hat_autorepeat = d0 + 100 * (n + 1))) ∧
      (g.ticks ≤ t0 + 500 →
        (main_loop_steps M v (f1 :: (fs ++ [g]))).m_menu
          = (main_loop_steps M v (f1 :: fs)).m_menu) ∧
      (g.ticks ≤ d0 →
        (main_loop_steps M v (f1 :: (fs ++ [g]))).m_menu
          = (main_loop_steps M v (f1 :: fs)).m_menu) ∧
      ((∀ f ∈ fs, f.ticks ≤ d0) → d0 < g.ticks →
        (main_loop_steps M v (f1 :: fs)).m_menu
          = v.m_menu ++ hat_calls (v.m_stick.hat ||| b.hat_bit) ∧
        (main_loop_steps M v (f1 :: (fs ++ [g]))).m_menu
          = v.m_menu ++ hat_calls (v.m_stick.hat ||| b.hat_bit)
              ++ hat_calls (v.m_stick.hat ||| b.hat_bit) ∧
        (main_loop_steps M v (f1 :: (fs ++ [g]))).m_hat_autorepeat = d0 + 100) := by
  have hcalls := hat_calls_ne_nil v.m_stick.hat b hb
  obtain ⟨-, hn0⟩ := or_bit_ne v.m_stick.hat b.hat_bit hfree (hat_bit_ne_zero b hb)
  have hf1' : f1 = ⟨pre ++ (Event.CONTROLLERBUTTON b 1, t0) :: post, f1.dt, f1.ticks, f1.keys⟩ := by
    cases f1; simp only at hf1; rw [hf1]
  obtain ⟨p1, p2, p3, p4⟩ := main_loop_step_press M v b t0 pre post f1.dt f1.ticks f1.keys hb
    hold hfree hpre hpost ht0 ht1
  rw [← hf1'] at p1 p2 p3 p4
  generalize hd0 : (if f1.ticks ≤ t0 + 500 then t0 + 500 else t0 + 600) = d0 at p3
  have hd1 : f1.ticks ≤ t0 + 500 → d0 = t0 + 500 := by
    intro h; rw [← hd0, if_pos h]
  have hd2 : t0 + 500 < f1.ticks → d0 = t0 + 600 := by
    intro h; rw [← hd0, if_neg (by omega)]
  have hge : t0 + 500 ≤ d0 := by
    rw [← hd0]; split_ifs <;> omega
  have hsub : d0 - 500 + 500 = d0 := by omega
  have hfs' : ∀ f ∈ fs, (∀ e ∈ f.events, e.1.is_dpad = false) ∧ f.ticks + 100 < 2 ^ 32 :=
    fun f hf => hfs f (List.mem_append_left _ hf)
  obtain ⟨hgev, hgb⟩ := hfs g (List.mem_append_right _ (List.mem_singleton_self g))
  obtain ⟨n, -, r1, r2, r3, r4, r5⟩ := main_loop_steps_held M (v.m_stick.hat ||| b.hat_bit)
    (d0 - 500) v.m_menu hn0 fs (main_loop_step M v f1) 0 hfs' p1 p2 (by rw [p3]; omega)
    (by rw [p4]; rfl)
  rw [hsub] at r3 r5
  have e0 : main_loop_steps M v [f1] = main_loop_step M v f1 := rfl
  have e1 : main_loop_steps M v (f1 :: fs) = main_loop_steps M (main_loop_step M v f1) fs := rfl
  have e2 : main_loop_steps M v (f1 :: (fs ++ [g]))
      = main_loop_step M (main_loop_steps M (main_loop_step M v f1) fs) g := by
    rw [← main_loop_steps_snoc]; rfl
  obtain ⟨-, -, k3, k4⟩ := main_loop_step_held M
    (main_loop_steps M (main_loop_step M v f1) fs) g _ _ hgev r1 r2 hn0 r3 hgb
  rw [e0, e1, e2]
  refine ⟨hcalls, p4, d0, hd1, hd2, p3, ⟨n, r4, r3, k4, ?_⟩, ?_, ?_, ?_⟩
  · intro hlt
    obtain ⟨q1, q2⟩ := k3 hlt
    exact ⟨q1, by rw [q2]; ring⟩
  · intro hle
    exact (k4 (by omega)).1
  · intro hle
    exact (k4 (by omega)).1
  · intro hall hlt
    have hn : n = 0 := r5 (by simpa using hall)
    subst hn
    obtain ⟨q1, q2⟩ := k3 (by simpa using hlt)
    refine ⟨by rw [r4]; simp [repeated], ?_, by rw [q2]⟩
    rw [q1, r4]; simp [repeated]

/-- C7, amended, at two concrete runs.  The up button is pressed at tick 1000 and handled by a
pass at tick 1001: passes at ticks 1001 and 1400 give one action, the pass at tick 1501 gives
the second and moves the deadline to 1600.  The up button is pressed at tick 0 and handled by
a pass at tick 501: the deadline is 600 after that pass, the pass at tick 550 gives no action,
and the pass at tick 601 gives the second and moves the deadline to 700. -/
theorem dpad_autorepeat_witness :
    ((main_loop_steps realMath rest_state
        [⟨[(Event.CONTROLLERBUTTON .DPAD_UP 1, 1000)], 1 / 60, 1001, fun _ => 0⟩,
         ⟨[], 1 / 60, 1400, fun _ => 0⟩]).m_menu = [] ++ hat_calls (0 ||| SDL_HAT_UP) ∧
      (main_loop_steps realMath rest_state
        [⟨[(Event.CONTROLLERBUTTON .DPAD_UP 1, 1000)], 1 / 60, 1001, fun _ => 0⟩,
         ⟨[], 1 / 60, 1400, fun _ => 0⟩,
         ⟨[], 1 / 60, 1501, fun _ => 0⟩]).m_menu
        = [] ++ hat_calls (0 ||| SDL_HAT_UP) ++ hat_calls (0 ||| SDL_HAT_UP) ∧
      (main_loop_steps realMath rest_state
        [⟨[(Event.CONTROLLERBUTTON .DPAD_UP 1, 1000)], 1 / 60, 1001, fun _ => 0⟩,
         ⟨[], 1 / 60, 1400, fun _ => 0⟩,
         ⟨[], 1 / 60, 1501, fun _ => 0⟩]).m_hat_autorepeat = 1000 + 500 + 100) ∧
    ((main_loop_steps realMath rest_state
        [⟨[(Event.CONTROLLERBUTTON .DPAD_UP 1, 0)], 1 / 60, 501, fun _ => 0⟩]).m_hat_autorepeat
        = 0 + 600 ∧
      (main_loop_steps realMath rest_state
        [⟨[(Event.CONTROLLERBUTTON .DPAD_UP 1, 0)], 1 / 60, 501, fun _ => 0⟩,
         ⟨[], 1 / 60, 550, fun _ => 0⟩]).m_menu = [] ++ hat_calls (0 ||| SDL_HAT_UP) ∧
      (main_loop_steps realMath rest_state
        [⟨[(Event.CONTROLLERBUTTON .DPAD_UP 1, 0)], 1 / 60, 501, fun _ => 0⟩,
         ⟨[], 1 / 60, 550, fun _ => 0⟩,
         ⟨[], 1 / 60, 601, fun _ => 0⟩]).m_menu
        = [] ++ hat_calls (0 ||| SDL_HAT_UP) ++ hat_calls (0 ||| SDL_HAT_UP) ∧
      (main_loop_steps realMath rest_state
        [⟨[(Event.CONTROLLERBUTTON .DPAD_UP 1, 0)], 1 / 60, 501, fun _ => 0⟩,
         ⟨[], 1 / 60, 550, fun _ => 0⟩,
         ⟨[], 1 / 60, 601, fun _ => 0⟩]).m_hat_autorepeat = 0 + 600 + 100) := by
  constructor
  · obtain ⟨-, -, d0, h1, -, -, -, -, -, h7⟩ :=
      dpad_autorepeat realMath rest_state .DPAD_UP 1000 [] []
        ⟨[(Event.CONTROLLERBUTTON .DPAD_UP 1, 1000)], 1 / 60, 1001, fun _ => 0⟩
        [⟨[], 1 / 60, 1400, fun _ => 0⟩] ⟨[], 1 / 60, 1501, fun _ => 0⟩
        rfl rfl rfl rfl (by simp) (by simp) (by simp) (by decide) (by decide)
    have hd : d0 = 1000 + 500 := h1 (by decide)
    subst hd
    exact h7 (by simp) (by decide)
  · obtain ⟨-, -, d0, -, h2, h3, -, -, -, h7⟩ :=
      dpad_autorepeat realMath rest_state .DPAD_UP 0 [] []
        ⟨[(Event.CONTROLLERBUTTON .DPAD_UP 1, 0)], 1 / 60, 501, fun _ => 0⟩
        [⟨[], 1 / 60, 550, fun _ => 0⟩] ⟨[], 1 / 60, 601, fun _ => 0⟩
        rfl rfl rfl rfl (by simp) (by simp) (by simp) (by decide) (by decide)
    have hd : d0 = 0 + 600 := h2 (by decide)
    subst hd
    exact ⟨h3, h7 (by simp) (by decide)⟩

end Autorepeat

/-! ## The command line: `--video3d-fov` -/

section Fov3d

theorem digit_value_digit_char : ∀ d : Fin 10, digit_value (digit_char d) = some d.val := by
  decide

theorem digit_char_plain : ∀ d : Fin 10,
    isspace (digit_char d) = false ∧ digit_char d ≠ '-' ∧ digit_char d ≠ '+' ∧
      digit_char d ≠ '.' := by
  decide

theorem ends_number_head {c : Char} {cs : List Char} (h : ends_number (c :: cs) = true) :
    digit_value c = none ∧ c ≠ '.' ∧ c ≠ 'e' ∧ c ≠ 'E' := by
  simpa [ends_number, Option.isNone_iff_eq_none, and_assoc] using h

theorem scan_digits_stop (rest : List Char) (h : ∀ c ∈ rest.head?, digit_value c = none)
    (acc n : Nat) : scan_digits rest acc n = (acc, n, rest) := by
  cases rest with
  | nil => rfl
  | cons c cs =>
    have hc : digit_value c = none := h c (by simp)
    simp [scan_digits, hc]

theorem scan_digits_digits (ds : List (Fin 10)) (rest : List Char)
    (h : ∀ c ∈ rest.head?, digit_value c = none) :
    ∀ acc n : Nat, scan_digits (ds.map digit_char ++ rest) acc n =
      (acc * 10 ^ ds.length + Nat.ofDigits 10 (ds.reverse.map Fin.val), n + ds.length, rest) := by
  induction ds with
  | nil => intro acc n; simpa using scan_digits_stop rest h acc n
  | cons d ds ih =>
    intro acc n
    have e : scan_digits ((d :: ds).map digit_char ++ rest) acc n =
        scan_digits (ds.map digit_char ++ rest) (acc * 10 + d.val) (n + 1) := by
      show scan_digits (digit_char d :: (ds.map digit_char ++ rest)) acc n = _
      rw [scan_digits, digit_value_digit_char]
    rw [e, ih]
    simp only [List.length_cons, List.reverse_cons, List.map_append, List.map_cons, List.map_nil,
      Nat.ofDigits_append, List.length_map, List.length_reverse, Nat.ofDigits_singleton]
    refine Prod.ext ?_ (Prod.ext ?_ rfl)
    · simp only; ring
    · simp only; omega

theorem skip_space_cons {c : Char} (h : isspace c = false) (cs : List Char) :
    skip_space (c :: cs) = c :: cs := by
  simp [skip_space, h]

theorem scan_sign_plain {c : Char} (h1 : c ≠ '-') (h2 : c ≠ '+') (cs : List Char) :
    scan_sign (c :: cs) = (false, c :: cs) := by
  simp [scan_sign, h1, h2]

theorem scan_exponent_stop {α : Type} [LinearOrderedField α] (m : α) (rest : List Char)
    (h : ends_number rest = true) : scan_exponent m rest = (m, rest) := by
  cases rest with
  | nil => rfl
  | cons c cs =>
    obtain ⟨-, -, h3, h4⟩ := ends_number_head h
    simp [scan_exponent, h3, h4]

theorem scan_fraction_frac (frac : Option (List (Fin 10))) (rest : List Char)
    (h : ends_number rest = true) :
    scan_fraction (frac_text frac ++ rest) =
      (Nat.ofDigits 10 ((frac.getD []).reverse.map Fin.val), (frac.getD []).length, rest) := by
  have hd : ∀ c ∈ rest.head?, digit_value c = none := by
    intro c hc
    cases rest with
    | nil => simp at hc
    | cons x xs =>
      simp at hc
      subst hc
      exact (ends_number_head h).1
  cases frac with
  | none =>
    cases rest with
    | nil => rfl
    | cons c cs =>
      have := (ends_number_head h).2.1
      simp [frac_text, scan_fraction, this]
  | some fs =>
    have := scan_digits_digits fs rest hd 0 0
    simp only [frac_text, List.cons_append, scan_fraction, if_true, this]
    simp

theorem scan_digits_int (ints : List (Fin 10)) (frac : Option (List (Fin 10)))
    (rest : List Char) (h : ends_number rest = true) :
    scan_digits (ints.map digit_char ++ (frac_text frac ++ rest)) 0 0 =
      (Nat.ofDigits 10 (ints.reverse.map Fin.val), ints.length, frac_text frac ++ rest) := by
  have hd : ∀ c ∈ (frac_text frac ++ rest).head?, digit_value c = none := by
    intro c hc
    cases frac with
    | none =>
      cases rest with
      | nil => simp [frac_text] at hc
      | cons x xs =>
        simp [frac_text] at hc
        subst hc
        exact (ends_number_head h).1
    | some fs =>
      simp [frac_text] at hc
      subst hc
      decide
  have := scan_digits_digits ints _ hd 0 0
  simpa using this

/-- The decimal reading on input that, after white space and a sign, consists of the digits of
a numeral followed by something that cannot continue a number. -/
theorem scan_decimal_of {α : Type} [LinearOrderedField α] (s : List Char) (neg : Bool)
    (ints : List (Fin 10)) (frac : Option (List (Fin 10))) (rest : List Char)
    (hs : scan_sign (skip_space s) = (neg, ints.map digit_char ++ (frac_text frac ++ rest)))
    (hcount : 0 < ints.length + (frac.getD []).length) (h : ends_number rest = true) :
    (scan_decimal s : Option (α × List Char)) =
      some (if neg then
          -(((Nat.ofDigits 10 (ints.reverse.map Fin.val) : Nat) : α) +
            ((Nat.ofDigits 10 ((frac.getD []).reverse.map Fin.val) : Nat) : α) /
              10 ^ (frac.getD []).length)
        else
          ((Nat.ofDigits 10 (ints.reverse.map Fin.val) : Nat) : α) +
            ((Nat.ofDigits 10 ((frac.getD []).reverse.map Fin.val) : Nat) : α) /
              10 ^ (frac.getD []).length, rest) := by
  unfold scan_decimal
  simp only [hs, scan_digits_int ints frac rest h, scan_fraction_frac frac rest h]
  rw [if_neg (by omega), scan_exponent_stop _ rest h]

/-- The decimal reading takes a written numeral in full and yields its value. -/
theorem scan_decimal_decimal {α : Type} [LinearOrderedField α] (d : Decimal)
    (hd : 0 < d.digit_count) (rest : List Char) (h : ends_number rest = true) :
    (scan_decimal (d.text ++ rest) : Option (α × List Char)) = some (d.value, rest) := by
  obtain ⟨sign, ints, frac⟩ := d
  simp only [Decimal.digit_count] at hd
  have hbody : skip_space (ints.map digit_char ++ (frac_text frac ++ rest))
        = ints.map digit_char ++ (frac_text frac ++ rest) ∧
      scan_sign (ints.map digit_char ++ (frac_text frac ++ rest))
        = (false, ints.map digit_char ++ (frac_text frac ++ rest)) := by
    cases ints with
    | nil =>
      cases frac with
      | none => simp at hd
      | some fs =>
        exact ⟨skip_space_cons (by decide) _, scan_sign_plain (by decide) (by decide) _⟩
    | cons i is =>
      obtain ⟨h1, h2, h3, -⟩ := digit_char_plain i
      exact ⟨skip_space_cons h1 _, scan_sign_plain h2 h3 _⟩
  have key : ∃ neg : Bool, neg = (sign == some true) ∧
      scan_sign (skip_space (Decimal.text ⟨sign, ints, frac⟩ ++ rest))
        = (neg, ints.map digit_char ++ (frac_text frac ++ rest)) := by
    simp only [Decimal.text, List.append_assoc]
    cases sign with
    | none => exact ⟨false, rfl, by rw [sign_text, List.nil_append, hbody.1, hbody.2]⟩
    | some b =>
      cases b with
      | true =>
        refine ⟨true, rfl, ?_⟩
        show scan_sign (skip_space ('-' :: _)) = _
        rw [skip_space_cons (by decide)]
        simp [scan_sign]
      | false =>
        refine ⟨false, rfl, ?_⟩
        show scan_sign (skip_space ('+' :: _)) = _
        rw [skip_space_cons (by decide)]
        simp [scan_sign]
  obtain ⟨neg, hneg, hs⟩ := key
  rw [scan_decimal_of _ neg ints frac rest hs hd h]
  subst hneg
  simp only [Decimal.value, beq_iff_eq]

theorem scan_decimal_none_of_not_starts {α : Type} [LinearOrderedField α] (s : List Char)
    (h : starts_number s = false) : (scan_decimal s : Option (α × List Char)) = none := by
  unfold starts_number at h
  unfold scan_decimal
  cases hs : skip_space s with
  | nil => simp [scan_sign, scan_digits, scan_fraction]
  | cons c cs =>
    rw [hs] at h
    simp only [Bool.or_eq_false_iff, beq_eq_false_iff_ne, ne_eq] at h
    obtain ⟨⟨⟨h1, h2⟩, h3⟩, h4⟩ := h
    have h5 : digit_value c = none := by
      cases hdv : digit_value c with
      | none => rfl
      | some d => rw [hdv] at h4; simp at h4
    simp [scan_sign_plain h1 h2, scan_digits, h5, scan_fraction, h3]

theorem skip_space_ne_nil_of_scan {α : Type} [LinearOrderedField α] (s : List Char)
    (r : α × List Char) (h : scan_decimal s = some r) : skip_space s ≠ [] := by
  intro hc
  have : (scan_decimal s : Option (α × List Char)) = none := by
    unfold scan_decimal
    simp [hc, scan_sign, scan_digits, scan_fraction]
  rw [this] at h
  exact Option.noConfusion h

/-- The decimal reading in the format `"%fx%f"` takes both numbers of `HxV`, whatever follows
that cannot continue the second number. -/
theorem sscanf_decimal_two {α : Type} [LinearOrderedField α] (H V : Decimal) (junk : List Char)
    (hH : 0 < H.digit_count) (hV : 0 < V.digit_count) (hj : ends_number junk = true) :
    (sscanf_decimal (H.text ++ 'x' :: (V.text ++ junk)) : Int × α × α)
      = (2, H.value, V.value) := by
  have e1 : (scan_decimal (H.text ++ 'x' :: (V.text ++ junk)) : Option (α × List Char))
      = some (H.value, 'x' :: (V.text ++ junk)) := scan_decimal_decimal H hH _ (by rfl)
  have e2 : (scan_decimal (V.text ++ junk) : Option (α × List Char)) = some (V.value, junk) :=
    scan_decimal_decimal V hV _ hj
  unfold sscanf_decimal
  rw [if_neg (skip_space_ne_nil_of_scan _ _ e1)]
  simp only [e1, e2]

theorem sscanf_decimal_no_number {α : Type} [LinearOrderedField α] (s : List Char)
    (h : starts_number s = false) : (sscanf_decimal s : Int × α × α).1 ≠ 2 := by
  unfold sscanf_decimal
  split_ifs
  · simp
  · rw [scan_decimal_none_of_not_starts s h]
    simp

theorem sscanf_decimal_no_x {α : Type} [LinearOrderedField α] (H : Decimal) (rest : List Char)
    (hH : 0 < H.digit_count) (hr : ends_number rest = true) (hx : rest.head? ≠ some 'x') :
    (sscanf_decimal (H.text ++ rest) : Int × α × α).1 ≠ 2 := by
  have e1 : (scan_decimal (H.text ++ rest) : Option (α × List Char)) = some (H.value, rest) :=
    scan_decimal_decimal H hH _ hr
  unfold sscanf_decimal
  rw [if_neg (skip_space_ne_nil_of_scan _ _ e1)]
  simp only [e1]
  cases rest with
  | nil => simp
  | cons c cs =>
    have hc : c ≠ 'x' := by simpa using hx
    split
    · rename_i heq
      simp only [List.cons.injEq] at heq
      exact absurd heq.1 hc
    · simp

theorem sscanf_decimal_no_second {α : Type} [LinearOrderedField α] (H : Decimal)
    (rest : List Char) (hH : 0 < H.digit_count) (hr : starts_number rest = false) :
    (sscanf_decimal (H.text ++ 'x' :: rest) : Int × α × α).1 ≠ 2 := by
  have e1 : (scan_decimal (H.text ++ 'x' :: rest) : Option (α × List Char))
      = some (H.value, 'x' :: rest) := scan_decimal_decimal H hH _ (by rfl)
  unfold sscanf_decimal
  rw [if_neg (skip_space_ne_nil_of_scan _ _ e1)]
  simp only [e1, scan_decimal_none_of_not_starts rest hr]
  simp

/-- What `parse_args` does with `--video3d-fov` and its value: it depends on the return value of
`sscanf` alone. -/
theorem parse_args_video3d_fov {α : Type} [LinearOrderedField α] (M : FloatMath α)
    (sscanf : List Char → Int × α × α) (prog value : String) (opts : Options α) :
    parse_args M sscanf [prog, "--video3d-fov", value] opts =
      if (sscanf value.data).1 ≠ 2 then
        .runtime_error "expected --video3d-fov HFOVxVFOV, got '--video3d-fov'"
      else
        .returned { opts with video := { opts.video with
          hfov := radians M (sscanf value.data).2.1
          vfov := radians M (sscanf value.data).2.2 } } := by
  have hd : starts_with_dash "--video3d-fov" = true := by decide
  have h1 : ("--video3d-fov" : String) ≠ "--wiimote" := by decide
  have h2 : ("--video3d-fov" : String) ≠ "--video" := by decide
  have h3 : ("--video3d-fov" : String) ≠ "--video3d" := by decide
  have hm : "expected --video3d-fov HFOVxVFOV, got '" ++ "--video3d-fov" ++ "'"
      = "expected --video3d-fov HFOVxVFOV, got '--video3d-fov'" := by decide
  simp only [parse_args, List.drop_succ_cons, List.drop_zero, parse_loop, hd, if_true, h1, h2, h3,
    if_false, hm]

theorem decimal_value_90_60 :
    (Decimal.value ⟨none, [9, 0], none⟩ : ℝ) = 90 ∧ (Decimal.value ⟨none, [6, 0], none⟩ : ℝ) = 60 := by
  have h9 : Nat.ofDigits 10 (([9, 0] : List (Fin 10)).reverse.map Fin.val) = 90 := by decide
  have h6 : Nat.ofDigits 10 (([6, 0] : List (Fin 10)).reverse.map Fin.val) = 60 := by decide
  have h0 : Nat.ofDigits 10 (([] : List (Fin 10)).reverse.map Fin.val) = 0 := by decide
  constructor
  · simp only [Decimal.value, Option.getD_none, h9, h0]
    norm_num
    exact Option.noConfusion
  · simp only [Decimal.value, Option.getD_none, h6, h0]
    norm_num
    exact Option.noConfusion

/-- C8, counterexample: the value `90x60abc` is not of the form number, `x`, number, yet
`parse_args` returns normally with `hfov = pi/2` and `vfov = pi/3`: the reading stops after the
second number, the return value of `sscanf` is 2, and `abc` is never looked at.  The decimal
reading stands for `sscanf` here: the value holds two decimal numbers, `90` and `60`. -/
theorem video3d_fov_trailing_text_counterexample :
    (sscanf_decimal "90x60abc".data : Int × ℝ × ℝ) = (2, 90, 60) ∧
    parse_args realMath sscanf_decimal ["viewer", "--video3d-fov", "90x60abc"] blank_options =
      .returned { (blank_options : Options ℝ) with
        video := { (blank_options : Options ℝ).video with
          hfov := Real.pi / 2, vfov := Real.pi / 3 } } := by
  have h := sscanf_decimal_two (α := ℝ) ⟨none, [9, 0], none⟩ ⟨none, [6, 0], none⟩ "abc".data
    (by decide) (by decide) (by decide)
  have hs : (Decimal.text ⟨none, [9, 0], none⟩ ++ 'x' :: (Decimal.text ⟨none, [6, 0], none⟩ ++
      "abc".data)) = ("90x60abc" : String).data := by decide
  rw [hs, decimal_value_90_60.1, decimal_value_90_60.2] at h
  refine ⟨h, ?_⟩
  rw [parse_args_video3d_fov]
  simp only [blank_options, h, ne_eq, not_true_eq_false, if_false, radians, realMath]
  have e1 : (90 : ℝ) * (Real.pi / 180) = Real.pi / 2 := by ring
  have e2 : (60 : ℝ) * (Real.pi / 180) = Real.pi / 3 := by ring
  rw [e1, e2]

/-- C8, amended: whatever the `sscanf` of the C library does, `parse_args` on `--video3d-fov`
with a value succeeds exactly when `sscanf` returns 2 for the value, and then stores the two
numbers read times `pi/180`; for every other return value it raises the argument error.  So for
decimal numerals `H` and `V` (optional sign, digits, optional fraction), when `sscanf` reads
`HxV`, or `HxV` followed by text that cannot continue the number `V`, as the decimal reading
does, the options hold `H * pi/180` and `V * pi/180`; and when `sscanf` agrees in its return
value with the decimal reading, the argument error is raised by every value that does not begin
(after white space) with a sign, a digit or a point, such as `bogus`, by every value in which
the first number is not followed by `x`, and by every value in which `x` is not followed by the
beginning of a number. -/
theorem video3d_fov_parse {α : Type} [LinearOrderedField α] (M : FloatMath α)
    (sscanf : List Char → Int × α × α) (prog value : String) (opts : Options α)
    (H V : Decimal) (junk rest : List Char)
    (hH : 0 < H.digit_count) (hV : 0 < V.digit_count) (hjunk : ends_number junk = true) :
    ((sscanf value.data).1 = 2 →
      parse_args M sscanf [prog, "--video3d-fov", value] opts =
        .returned { opts with video := { opts.video with
          hfov := (sscanf value.data).2.1 * (M.pi / 180)
          vfov := (sscanf value.data).2.2 * (M.pi / 180) } }) ∧
    ((sscanf value.data).1 ≠ 2 →
      parse_args M sscanf [prog, "--video3d-fov", value] opts =
        .runtime_error "expected --video3d-fov HFOVxVFOV, got '--video3d-fov'") ∧
    (sscanf (H.text ++ 'x' :: (V.text ++ junk)) = sscanf_decimal (H.text ++ 'x' :: (V.text ++ junk)) →
      parse_args M sscanf [prog, "--video3d-fov", ⟨H.text ++ 'x' :: (V.text ++ junk)⟩] opts =
        .returned { opts with video := { opts.video with
          hfov := H.value * (M.pi / 180), vfov := V.value * (M.pi / 180) } }) ∧
    (sscanf (H.text ++ 'x' :: V.text) = sscanf_decimal (H.text ++ 'x' :: V.text) →
      parse_args M sscanf [prog, "--video3d-fov", ⟨H.text ++ 'x' :: V.text⟩] opts =
        .returned { opts with video := { opts.video with
          hfov := H.value * (M.pi / 180), vfov := V.value * (M.pi / 180) } }) ∧
    (starts_number rest = false → (sscanf rest).1 = (sscanf_decimal rest : Int × α × α).1 →
      parse_args M sscanf [prog, "--video3d-fov", ⟨rest⟩] opts =
        .runtime_error "expected --video3d-fov HFOVxVFOV, got '--video3d-fov'") ∧
    (ends_number rest = true → rest.head? ≠ some 'x' →
      (sscanf (H.text ++ rest)).1 = (sscanf_decimal (H.text ++ rest) : Int × α × α).1 →
      parse_args M sscanf [prog, "--video3d-fov", ⟨H.text ++ rest⟩] opts =
        .runtime_error "expected --video3d-fov HFOVxVFOV, got '--video3d-fov'") ∧
    (starts_number rest = false →
      (sscanf (H.text ++ 'x' :: rest)).1
        = (sscanf_decimal (H.text ++ 'x' :: rest) : Int × α × α).1 →
      parse_args M sscanf [prog, "--video3d-fov", ⟨H.text ++ 'x' :: rest⟩] opts =
        .runtime_error "expected --video3d-fov HFOVxVFOV, got '--video3d-fov'") := by
  have ok : ∀ (s : List Char) (h v : α), sscanf s = (2, h, v) →
      parse_args M sscanf [prog, "--video3d-fov", ⟨s⟩] opts =
        .returned { opts with video := { opts.video with
          hfov := h * (M.pi / 180), vfov := v * (M.pi / 180) } } := by
    intro s h v hs
    rw [parse_args_video3d_fov]
    simp only [hs, ne_eq, not_true_eq_false, if_false, radians]
  have bad : ∀ s : List Char, (sscanf s).1 ≠ 2 →
      parse_args M sscanf [prog, "--video3d-fov", ⟨s⟩] opts =
        .runtime_error "expected --video3d-fov HFOVxVFOV, got '--video3d-fov'" := by
    intro s hs
    rw [parse_args_video3d_fov, if_pos hs]
  refine ⟨?_, ?_, ?_, ?_, ?_, ?_, ?_⟩
  · intro h
    rw [parse_args_video3d_fov]
    simp only [h, ne_eq, not_true_eq_false, if_false, radians]
  · intro h
    exact bad value.data h
  · intro h
    exact ok _ _ _ (h.trans (sscanf_decimal_two H V junk hH hV hjunk))
  · intro h
    have h2 := sscanf_decimal_two (α := α) H V [] hH hV rfl
    rw [List.append_nil] at h2
    exact ok _ _ _ (h.trans h2)
  · intro h1 h2
    exact bad _ (by rw [h2]; exact sscanf_decimal_no_number rest h1)
  · intro h1 h2 h3
    exact bad _ (by rw [h3]; exact sscanf_decimal_no_x H rest hH h1 h2)
  · intro h1 h2
    exact bad _ (by rw [h2]; exact sscanf_decimal_no_second H rest hH h1)

/-- C8, amended, at the values of the specification, with the decimal reading for `sscanf`:
`90x60` gives `pi/2` and `pi/3`, and `bogus` raises the argument error. -/
theorem video3d_fov_parse_witness :
    parse_args realMath sscanf_decimal ["viewer", "--video3d-fov", "90x60"] blank_options =
      .returned { (blank_options : Options ℝ) with
        video := { (blank_options : Options ℝ).video with
          hfov := Real.pi / 2, vfov := Real.pi / 3 } } ∧
    parse_args realMath sscanf_decimal ["viewer", "--video3d-fov", "bogus"]
        (blank_options : Options ℝ) =
      .runtime_error "expected --video3d-fov HFOVxVFOV, got '--video3d-fov'" := by
  have h := video3d_fov_parse realMath sscanf_decimal "viewer" "bogus"
    (blank_options : Options ℝ) ⟨none, [9, 0], none⟩ ⟨none, [6, 0], none⟩ [] "bogus".data
    (by decide) (by decide) (by decide)
  refine ⟨?_, h.2.2.2.2.1 (by decide) rfl⟩
  have hs : (⟨Decimal.text ⟨none, [9, 0], none⟩ ++ 'x' :: Decimal.text ⟨none, [6, 0], none⟩⟩ :
      String) = "90x60" := by decide
  have h2 := h.2.2.2.1 rfl
  rw [hs] at h2
  rw [h2]
  simp only [blank_options, realMath, decimal_value_90_60.1, decimal_value_90_60.2]
  have e1 : (90 : ℝ) * (Real.pi / 180) = Real.pi / 2 := by ring
  have e2 : (60 : ℝ) * (Real.pi / 180) = Real.pi / 3 := by ring
  rw [e1, e2]

end Fov3d

/-! ## The command line: models and video flags -/

section Args

theorem is_value_flag_dash (arg : String) (h : is_value_flag arg = true) :
    starts_with_dash arg = true := by
  simp only [is_value_flag, Bool.or_eq_true, decide_eq_true_eq] at h
  rcases h with (h | h) | h <;> subst h <;> decide

theorem getD_of_drop (argv : List String) (i : Nat) (arg : String) (rest : List String)
    (h : argv.drop i = arg :: rest) : argv.getD i "" = arg ∧ argv.drop (i + 1) = rest := by
  constructor
  · have : (argv.drop i)[0]? = some arg := by rw [h]; simp
    rw [List.getElem?_drop] at this
    simp only [add_zero] at this
    simp [this]
  · have : argv.drop (i + 1) = (argv.drop i).drop 1 := by
      rw [List.drop_drop]
    rw [this, h]; rfl

theorem parse_loop_cons {α : Type} [LinearOrderedField α] (M : FloatMath α)
    (sscanf : List Char → Int × α × α) (i : Nat)
    (arg : String) (rest : List String) (opts : Options α) :
    parse_loop M sscanf i (arg :: rest) opts =
      if starts_with_dash arg then
        if arg = "--wiimote" then
          parse_loop M sscanf (i + 1) rest { opts with wiimote := true }
        else if arg = "--video" then
          match rest with
          | [] => .null_argument (i + 1)
          | value :: rest =>
            parse_loop M sscanf (i + 2) rest { opts with video := { opts.video with filename := value } }
        else if arg = "--video3d" then
          match rest with
          | [] => .null_argument (i + 1)
          | value :: rest =>
            parse_loop M sscanf (i + 2) rest
              { opts with video := { opts.video with stereo := true, filename := value } }
        else if arg = "--video3d-fov" then
          match rest with
          | [] => .null_argument (i + 1)
          | value :: rest =>
            if (sscanf value.data).1 ≠ 2 then
              .runtime_error ("expected --video3d-fov HFOVxVFOV, got '" ++ arg ++ "'")
            else
              parse_loop M sscanf (i + 2) rest
                { opts with video := { opts.video with
                    hfov := radians M (sscanf value.data).2.1
                    vfov := radians M (sscanf value.data).2.2 } }
        else if arg = "--help" ∨ arg = "-h" then
          .exit 0
        else
          .runtime_error ("unknown option: " ++ arg)
      else
        parse_loop M sscanf (i + 1) rest { opts with models := opts.models ++ [arg] } := by
  cases rest <;> simp only [parse_loop]

/-- The loop of `parse_args`, started at a position that is read as a flag or a model, appends
the positional arguments from that position on. -/
theorem parse_loop_models {α : Type} [LinearOrderedField α] (M : FloatMath α)
    (sscanf : List Char → Int × α × α) (argv : List String) (n : Nat) :
    ∀ (i : Nat) (rest : List String) (opts opts' : Options α),
      rest.length = n → argv.drop i = rest → 1 ≤ i → consumed argv i = false →
      parse_loop M sscanf i rest opts = .returned opts' →
      opts'.models = opts.models ++
        ((List.range' i n).filter (is_positional argv)).map (fun k => argv.getD k "") := by
  induction n using Nat.strong_induction_on with
  | _ n ih =>
    intro i rest opts opts' hlen hdrop hi hcons hret
    cases rest with
    | nil =>
      subst hlen
      simp only [parse_loop, ParseResult.returned.injEq] at hret
      subst hret
      simp
    | cons arg rest1 =>
      obtain ⟨hget, hdrop1⟩ := getD_of_drop argv i arg rest1 hdrop
      simp only [List.length_cons] at hlen
      subst hlen
      have hget' : argv[i]?.getD "" = arg := by simpa using hget
      have hc1 : consumed argv (i + 1) = is_value_flag arg := by
        simp [consumed, hi, hget', hcons]
      rw [List.range'_succ, List.filter_cons]
      by_cases hd : starts_with_dash arg = true
      · have hp : is_positional argv i = false := by simp [is_positional, hget', hd]
        rw [hp]
        simp only [Bool.false_eq_true, if_false]
        rw [parse_loop_cons, if_pos hd] at hret
        have step : ∀ (value : String) (rest2 : List String) (o : Options α),
            is_value_flag arg = true → rest1 = value :: rest2 →
            parse_loop M sscanf (i + 2) rest2 o = .returned opts' → o.models = opts.models →
            opts'.models = opts.models ++
              ((List.range' (i + 1) rest1.length).filter (is_positional argv)).map
                (fun k => argv.getD k "") := by
          intro value rest2 o hvf hr1 hr ho
          subst hr1
          obtain ⟨-, hdrop2⟩ := getD_of_drop argv (i + 1) value rest2 hdrop1
          have hc2 : consumed argv (i + 2) = false := by
            show (decide (1 ≤ i + 1) && is_value_flag (argv.getD (i + 1) "") &&
              !consumed argv (i + 1)) = false
            rw [hc1, hvf]; simp
          have hp1 : is_positional argv (i + 1) = false := by
            unfold is_positional
            rw [hc1, hvf]; simp
          have := ih rest2.length (by simp only [List.length_cons]; omega) (i + 2) rest2 o opts'
            rfl hdrop2 (by omega) hc2 hr
          rw [this, ho]
          simp only [List.length_cons, List.range'_succ, List.filter_cons, hp1]
          simp
        split_ifs at hret with h1 h2 h3 h4 h5
        · -- --wiimote
          have := ih rest1.length (by omega) (i + 1) rest1 _ opts' rfl hdrop1 (by omega)
            (by rw [hc1, h1]; decide) hret
          exact this
        · -- --video
          cases rest1 with
          | nil => simp at hret
          | cons value rest2 =>
            simp only at hret
            exact step value rest2 _ (by rw [h2]; decide) rfl hret rfl
        · -- --video3d
          cases rest1 with
          | nil => simp at hret
          | cons value rest2 =>
            simp only at hret
            exact step value rest2 _ (by rw [h3]; decide) rfl hret rfl
        · -- --video3d-fov
          cases rest1 with
          | nil => simp at hret
          | cons value rest2 =>
            simp only at hret
            split_ifs at hret
            exact step value rest2 _ (by rw [h4]; decide) rfl hret rfl
      · have hd' : starts_with_dash arg = false := by simpa using hd
        have hp : is_positional argv i = true := by
          simp [is_positional, hget', hd', hcons, hi]
        have hv : is_value_flag arg = false := by
          cases hv : is_value_flag arg with
          | false => rfl
          | true => exact absurd (is_value_flag_dash arg hv) hd
        rw [hp]
        simp only [if_true, List.map_cons, hget]
        rw [parse_loop_cons, if_neg hd] at hret
        have := ih rest1.length (by omega) (i + 1) rest1 _ opts' rfl hdrop1 (by omega)
          (by rw [hc1, hv]) hret
        rw [this]
        simp

/-- C9: whatever the `sscanf` of the C library does, on every argument list on which
`parse_args` returns normally, the models list of the options is the old list followed, in
order, by exactly the arguments after `argv[0]` that do not start with `-` and are not consumed
as the value of `--video`, `--video3d` or `--video3d-fov`. -/
theorem parse_args_models {α : Type} [LinearOrderedField α] (M : FloatMath α)
    (sscanf : List Char → Int × α × α) (argv : List String) (opts opts' : Options α)
    (h : parse_args M sscanf argv opts = .returned opts') :
    opts'.models = opts.models ++ positional argv := by
  cases argv with
  | nil =>
    simp only [parse_args, List.drop_nil, parse_loop, ParseResult.returned.injEq] at h
    subst h
    simp [positional]
  | cons a t =>
    have := parse_loop_models M sscanf (a :: t) t.length 1 t opts opts' rfl rfl (le_refl 1) rfl h
    rw [this]
    have h0 : is_positional (a :: t) 0 = false := rfl
    simp only [positional, List.length_cons, List.range_eq_range', List.range'_succ,
      List.filter_cons, h0]
    simp

/-- C9 at a concrete command line: the value of the first `--video` is the second `--video`,
and the three models are kept in order.  The command line has no `--video3d-fov`, so `sscanf`
is never called and any function can stand for it. -/
theorem parse_args_models_witness :
    parse_args realMath (fun _ => (0, 0, 0)) ["viewer", "a.obj", "--video", "--video", "b.obj", "--wiimote", "c"]
        blank_options =
      .returned { wiimote := true
                  video := { filename := "--video", stereo := false, flat_canvas := false,
                             hfov := 0, vfov := 0 }
                  models := ["a.obj", "b.obj", "c"] } ∧
    positional ["viewer", "a.obj", "--video", "--video", "b.obj", "--wiimote", "c"]
      = ["a.obj", "b.obj", "c"] ∧
    ["a.obj", "b.obj", "c"] = (blank_options : Options ℝ).models ++
      positional ["viewer", "a.obj", "--video", "--video", "b.obj", "--wiimote", "c"] :=
  ⟨rfl, by decide,
    parse_args_models realMath (fun _ => (0, 0, 0))
      ["viewer", "a.obj", "--video", "--video", "b.obj", "--wiimote", "c"] blank_options
      { wiimote := true
        video := { filename := "--video", stereo := false, flat_canvas := false,
                   hfov := 0, vfov := 0 }
        models := ["a.obj", "b.obj", "c"] } rfl⟩

/-- C10, counterexample: with `flat_canvas` unset in the options given to `parse_args`, the
options from `--video movie.ogv` make `init_video_player` build the curved screen, not the
plane; with `flat_canvas` set, the options from `--video3d movie.ogv` make it build the plane,
not the curved screen.  Neither command line has `--video3d-fov`, so `sscanf` is never called
and any function can stand for it. -/
theorem video_flag_canvas_counterexample :
    (parse_args realMath (fun _ => (0, 0, 0)) ["viewer", "--video", "movie.ogv"] blank_options =
        .returned { (blank_options : Options ℝ) with
          video := { (blank_options : Options ℝ).video with filename := "movie.ogv" } } ∧
      (init_video_player realMath
        { (blank_options : Options ℝ).video with filename := "movie.ogv" }).mesh
        = .curved_screen 15 0 0 32 32) ∧
    (parse_args realMath (fun _ => (0, 0, 0)) ["viewer", "--video3d", "movie.ogv"]
        { (blank_options : Options ℝ) with
          video := { (blank_options : Options ℝ).video with flat_canvas := true } } =
        .returned { (blank_options : Options ℝ) with
          video := { (blank_options : Options ℝ).video with
            flat_canvas := true, stereo := true, filename := "movie.ogv" } } ∧
      (init_video_player realMath
        { (blank_options : Options ℝ).video with
          flat_canvas := true, stereo := true, filename := "movie.ogv" }).mesh
        = .plane 5) :=
  ⟨⟨rfl, rfl⟩, ⟨rfl, rfl⟩⟩

/-- C10, amended: for every file name `F` and every options value given to `parse_args`,
`--video F` stores the file name, `--video3d F` stores the file name and sets `stereo`, and
neither touches `flat_canvas`; so `init_video_player` builds the same canvas for both: the flat
plane when `flat_canvas` was set in the options given, the curved screen otherwise. -/
theorem video_flags_same_canvas {α : Type} [LinearOrderedField α] (M : FloatMath α)
    (sscanf : List Char → Int × α × α) (prog F : String) (opts : Options α) :
    parse_args M sscanf [prog, "--video", F] opts =
      .returned { opts with video := { opts.video with filename := F } } ∧
    parse_args M sscanf [prog, "--video3d", F] opts =
      .returned { opts with video := { opts.video with stereo := true, filename := F } } ∧
    init_video_player M { opts.video with filename := F } =
      init_video_player M { opts.video with stereo := true, filename := F } ∧
    (init_video_player M { opts.video with filename := F }).mesh =
      (if opts.video.flat_canvas then Mesh.plane 5
       else Mesh.curved_screen 15 opts.video.hfov opts.video.vfov 32 32) := by
  refine ⟨rfl, rfl, rfl, ?_⟩
  simp only [init_video_player]
  split_ifs <;> rfl

end Args

/-! ## The distance offset -/

section Distance

open Real

/-- The distance offset that `update_offsets` stores: the distance scale times half the
distance of the two points times the tangent of `radians(m_fov)`, that is of
`m_fov * pi / 180`. -/
theorem update_offsets_distance_offset (v : State ℝ) (a b : Vec2 ℝ) :
    (update_offsets realMath v a b).m_cfg.m_distance_offset =
      v.m_cfg.m_distance_scale *
        Real.sqrt ((a.x - b.x) * (a.x - b.x) + (a.y - b.y) * (a.y - b.y)) / 2 *
        Real.tan (v.m_cfg.m_fov * (π / 180)) := by
  by_cases h : a.x > b.x
  · simp only [update_offsets, h, if_true, Vec2.sub, Vec2.length, radians, realMath]
  · simp only [update_offsets, h, if_false, Vec2.sub, Vec2.length, radians, realMath]
    rw [show (b.x - a.x) * (b.x - a.x) + (b.y - a.y) * (b.y - a.y)
      = (a.x - b.x) * (a.x - b.x) + (a.y - b.y) * (a.y - b.y) by ring]

/-- C11, evaluation at the failing input: with a field of view of 1 radian, distance scale 1
and the points `(0, 0)` and `(2, 0)`, whose half distance is 1, `update_offsets` stores the
distance offset `tan(pi/180)`, which is not `1 * 1 * tan(1)`. -/
theorem update_offsets_distance_offset_degrees :
    (rest_state : State ℝ).m_cfg.m_fov = 1 ∧
    (rest_state : State ℝ).m_cfg.m_distance_scale = 1 ∧
    Vec2.length realMath (Vec2.sub (⟨2, 0⟩ : Vec2 ℝ) ⟨0, 0⟩) / 2 = 1 ∧
    (update_offsets realMath rest_state ⟨0, 0⟩ ⟨2, 0⟩).m_cfg.m_distance_offset
      = Real.tan (π / 180) ∧
    (update_offsets realMath rest_state ⟨0, 0⟩ ⟨2, 0⟩).m_cfg.m_distance_offset
      ≠ 1 * 1 * Real.tan 1 := by
  have hpi3 : (3 : ℝ) < π := Real.pi_gt_three
  have hpi4 : π < 4 := Real.pi_lt_four
  have hs : Real.sqrt ((2 - 0) * (2 - 0) + (0 - 0) * (0 - 0)) = 2 := by
    rw [show ((2 : ℝ) - 0) * (2 - 0) + (0 - 0) * (0 - 0) = 2 ^ 2 by norm_num]
    exact Real.sqrt_sq (by norm_num)
  have hd : (update_offsets realMath rest_state ⟨0, 0⟩ ⟨2, 0⟩).m_cfg.m_distance_offset
      = Real.tan (π / 180) := by
    rw [update_offsets_distance_offset]
    have hs' : Real.sqrt ((0 - 2) * (0 - 2) + (0 - 0) * (0 - 0)) = 2 := by
      rw [show ((0 : ℝ) - 2) * (0 - 2) + (0 - 0) * (0 - 0) = 2 ^ 2 by norm_num]
      exact Real.sqrt_sq (by norm_num)
    simp only [rest_state, hs']
    norm_num
  have hlt : Real.tan (π / 180) < Real.tan 1 :=
    Real.tan_lt_tan_of_lt_of_lt_pi_div_two (by linarith) (by linarith) (by linarith)
  refine ⟨rfl, rfl, ?_, hd, ?_⟩
  · show Real.sqrt ((2 - 0) * (2 - 0) + (0 - 0) * (0 - 0)) / 2 = 1
    rw [hs]; norm_num
  · rw [hd]
    intro h
    rw [one_mul, one_mul] at h
    exact absurd h (ne_of_lt hlt)

end Distance

/-! ## The up vector of the FPS camera -/

section Up

open Real

/-- The horizontal length `f` of the rebuilt look_at is the focus distance times the cosine of
the clamped pitch, and it is positive. -/
theorem fps_horizontal_length (v : State ℝ) (dt : ℝ) (h : v.m_cfg.m_look_at ≠ ⟨0, 0, 0⟩) :
    Real.sqrt ((update_fps_mode realMath v dt).m_cfg.m_look_at.x *
        (update_fps_mode realMath v dt).m_cfg.m_look_at.x +
      (update_fps_mode realMath v dt).m_cfg.m_look_at.z *
        (update_fps_mode realMath v dt).m_cfg.m_look_at.z)
      = v.m_cfg.m_look_at.length realMath * Real.cos (fps_pitch realMath v dt) ∧
    0 < v.m_cfg.m_look_at.length realMath * Real.cos (fps_pitch realMath v dt) := by
  have hb := fps_pitch_bounds v dt
  have hpi : (3 : ℝ) < π := Real.pi_gt_three
  have hfd := look_at_length_pos _ h
  have hcos : 0 < Real.cos (fps_pitch realMath v dt) :=
    Real.cos_pos_of_mem_Ioo ⟨by linarith, by linarith⟩
  refine ⟨?_, mul_pos hfd hcos⟩
  rw [update_fps_mode_look_at]
  simp only
  have e : Real.cos (fps_pitch realMath v dt) * Real.cos (fps_yaw realMath v dt) *
        v.m_cfg.m_look_at.length realMath *
        (Real.cos (fps_pitch realMath v dt) * Real.cos (fps_yaw realMath v dt) *
          v.m_cfg.m_look_at.length realMath) +
      Real.cos (fps_pitch realMath v dt) * Real.sin (fps_yaw realMath v dt) *
        v.m_cfg.m_look_at.length realMath *
        (Real.cos (fps_pitch realMath v dt) * Real.sin (fps_yaw realMath v dt) *
          v.m_cfg.m_look_at.length realMath)
      = (v.m_cfg.m_look_at.length realMath * Real.cos (fps_pitch realMath v dt)) ^ 2 := by
    have := Real.cos_sq_add_sin_sq (fps_yaw realMath v dt)
    linear_combination
      (v.m_cfg.m_look_at.length realMath * Real.cos (fps_pitch realMath v dt)) ^ 2 * this
  rw [e, Real.sqrt_sq (le_of_lt (mul_pos hfd hcos))]

/-- The up vector that `update_fps_mode` stores, in terms of the yaw and the clamped pitch. -/
theorem update_fps_mode_up (v : State ℝ) (dt : ℝ) (h : v.m_cfg.m_look_at ≠ ⟨0, 0, 0⟩) :
    (update_fps_mode realMath v dt).m_cfg.m_up =
      ⟨-(Real.cos (fps_yaw realMath v dt) * Real.sin (fps_pitch realMath v dt)),
       Real.cos (fps_pitch realMath v dt),
       -(Real.sin (fps_yaw realMath v dt) * Real.sin (fps_pitch realMath v dt))⟩ := by
  obtain ⟨hf, hfpos⟩ := fps_horizontal_length v dt h
  have hb := fps_pitch_bounds v dt
  have hpi : (3 : ℝ) < π := Real.pi_gt_three
  have hfd := look_at_length_pos _ h
  have hcos : 0 < Real.cos (fps_pitch realMath v dt) :=
    Real.cos_pos_of_mem_Ioo ⟨by linarith, by linarith⟩
  rw [update_fps_mode_look_at] at hf
  simp only at hf
  set p := fps_pitch realMath v dt with hp
  set y := fps_yaw realMath v dt with hy
  set fd := v.m_cfg.m_look_at.length realMath with hfd'
  have hup : (update_fps_mode realMath v dt).m_cfg.m_up =
      Vec3.normalize realMath
        ⟨-(Real.cos p * Real.cos y * fd) /
            realMath.sqrt (Real.cos p * Real.cos y * fd * (Real.cos p * Real.cos y * fd) +
              Real.cos p * Real.sin y * fd * (Real.cos p * Real.sin y * fd)) *
            (Real.sin p * fd),
         realMath.sqrt (Real.cos p * Real.cos y * fd * (Real.cos p * Real.cos y * fd) +
              Real.cos p * Real.sin y * fd * (Real.cos p * Real.sin y * fd)),
         -(Real.cos p * Real.sin y * fd) /
            realMath.sqrt (Real.cos p * Real.cos y * fd * (Real.cos p * Real.cos y * fd) +
              Real.cos p * Real.sin y * fd * (Real.cos p * Real.sin y * fd)) *
            (Real.sin p * fd)⟩ := rfl
  have hf' : realMath.sqrt (Real.cos p * Real.cos y * fd * (Real.cos p * Real.cos y * fd) +
      Real.cos p * Real.sin y * fd * (Real.cos p * Real.sin y * fd)) = fd * Real.cos p := hf
  rw [hup, hf']
  have hx : -(Real.cos p * Real.cos y * fd) / (fd * Real.cos p) * (Real.sin p * fd)
      = -(Real.cos y * Real.sin p) * fd := by
    field_simp
    ring
  have hz : -(Real.cos p * Real.sin y * fd) / (fd * Real.cos p) * (Real.sin p * fd)
      = -(Real.sin y * Real.sin p) * fd := by
    field_simp
    ring
  rw [hx, hz]
  have hn : realMath.sqrt (-(Real.cos y * Real.sin p) * fd * (-(Real.cos y * Real.sin p) * fd) +
      fd * Real.cos p * (fd * Real.cos p) +
      -(Real.sin y * Real.sin p) * fd * (-(Real.sin y * Real.sin p) * fd)) = fd := by
    show Real.sqrt _ = fd
    have e : -(Real.cos y * Real.sin p) * fd * (-(Real.cos y * Real.sin p) * fd) +
        fd * Real.cos p * (fd * Real.cos p) +
        -(Real.sin y * Real.sin p) * fd * (-(Real.sin y * Real.sin p) * fd) = fd ^ 2 := by
      have h1 := Real.cos_sq_add_sin_sq y
      have h2 := Real.cos_sq_add_sin_sq p
      linear_combination fd ^ 2 * Real.sin p ^ 2 * h1 + fd ^ 2 * h2
    rw [e, Real.sqrt_sq hfd.le]
  simp only [Vec3.normalize, Vec3.scale, hn]
  have hne : fd ≠ 0 := hfd.ne'
  congr 1 <;> field_simp

/-- C13: for every camera with non-zero look_at, every stick input and every frame time, after
`update_fps_mode` the horizontal length `f` of the new look_at, by which the code divides, is
positive, the up vector has length 1, and the up vector is orthogonal to the new look_at. -/
theorem fps_up_unit_orthogonal (v : State ℝ) (s : Stick ℝ) (dt : ℝ)
    (h : v.m_cfg.m_look_at ≠ ⟨0, 0, 0⟩) :
    0 < Real.sqrt
      ((update_fps_mode realMath { v with m_stick := s } dt).m_cfg.m_look_at.x *
          (update_fps_mode realMath { v with m_stick := s } dt).m_cfg.m_look_at.x +
        (update_fps_mode realMath { v with m_stick := s } dt).m_cfg.m_look_at.z *
          (update_fps_mode realMath { v with m_stick := s } dt).m_cfg.m_look_at.z) ∧
    Vec3.length realMath (update_fps_mode realMath { v with m_stick := s } dt).m_cfg.m_up = 1 ∧
    Vec3.dot (update_fps_mode realMath { v with m_stick := s } dt).m_cfg.m_up
      (update_fps_mode realMath { v with m_stick := s } dt).m_cfg.m_look_at = 0 := by
  have h' : ({ v with m_stick := s } : State ℝ).m_cfg.m_look_at ≠ ⟨0, 0, 0⟩ := h
  obtain ⟨hf, hfpos⟩ := fps_horizontal_length { v with m_stick := s } dt h'
  have hup := update_fps_mode_up { v with m_stick := s } dt h'
  refine ⟨by rw [hf]; exact hfpos, ?_, ?_⟩
  · rw [hup]
    show Real.sqrt _ = 1
    have e : -(Real.cos (fps_yaw realMath { v with m_stick := s } dt) *
            Real.sin (fps_pitch realMath { v with m_stick := s } dt)) *
          -(Real.cos (fps_yaw realMath { v with m_stick := s } dt) *
            Real.sin (fps_pitch realMath { v with m_stick := s } dt)) +
        Real.cos (fps_pitch realMath { v with m_stick := s } dt) *
          Real.cos (fps_pitch realMath { v with m_stick := s } dt) +
        -(Real.sin (fps_yaw realMath { v with m_stick := s } dt) *
            Real.sin (fps_pitch realMath { v with m_stick := s } dt)) *
          -(Real.sin (fps_yaw realMath { v with m_stick := s } dt) *
            Real.sin (fps_pitch realMath { v with m_stick := s } dt)) = 1 := by
      have h1 := Real.cos_sq_add_sin_sq (fps_yaw realMath { v with m_stick := s } dt)
      have h2 := Real.cos_sq_add_sin_sq (fps_pitch realMath { v with m_stick := s } dt)
      linear_combination
        Real.sin (fps_pitch realMath { v with m_stick := s } dt) ^ 2 * h1 + h2
    rw [e, Real.sqrt_one]
  · rw [hup, update_fps_mode_look_at]
    simp only [Vec3.dot]
    have h1 := Real.cos_sq_add_sin_sq (fps_yaw realMath { v with m_stick := s } dt)
    linear_combination
      (-(Real.cos (fps_pitch realMath { v with m_stick := s } dt) *
        Real.sin (fps_pitch realMath { v with m_stick := s } dt) *
        Vec3.length realMath v.m_cfg.m_look_at)) * h1

/-- C13 at a concrete camera: one update from the example camera with a stick input. -/
theorem fps_up_unit_orthogonal_witness :
    (rest_state : State ℝ).m_cfg.m_look_at ≠ ⟨0, 0, 0⟩ ∧
    Vec3.length realMath
      (update_fps_mode realMath
        { (rest_state : State ℝ) with
          m_stick := { (centred_stick : Stick ℝ) with rot := ⟨1, -1, 0⟩ } }
        (1 / 60)).m_cfg.m_up = 1 :=
  ⟨by simp [rest_state],
   (fps_up_unit_orthogonal rest_state { (centred_stick : Stick ℝ) with rot := ⟨1, -1, 0⟩ }
      (1 / 60) (by simp [rest_state])).2.1⟩

end Up

/-! ## The range of the yaw and pitch offsets -/

section OffsetRange

open Real

/-- A rotation about the centre keeps a point that starts within 512 by 384 of the centre
within distance 640 of it, in each coordinate. -/
theorem rotate_within_640 (dx dy θ : ℝ) (hx : |dx| ≤ 512) (hy : |dy| ≤ 384) :
    |dx * Real.cos θ - dy * Real.sin θ| ≤ 640 ∧ |dx * Real.sin θ + dy * Real.cos θ| ≤ 640 := by
  have h1 := Real.cos_sq_add_sin_sq θ
  have hx2 : dx ^ 2 ≤ 512 ^ 2 := by
    have := abs_nonneg dx
    calc dx ^ 2 = |dx| ^ 2 := (sq_abs dx).symm
      _ ≤ 512 ^ 2 := by gcongr
  have hy2 : dy ^ 2 ≤ 384 ^ 2 := by
    have := abs_nonneg dy
    calc dy ^ 2 = |dy| ^ 2 := (sq_abs dy).symm
      _ ≤ 384 ^ 2 := by gcongr
  have hsum : (dx * Real.cos θ - dy * Real.sin θ) ^ 2 + (dx * Real.sin θ + dy * Real.cos θ) ^ 2
      = dx ^ 2 + dy ^ 2 := by
    linear_combination (dx ^ 2 + dy ^ 2) * h1
  constructor
  · apply abs_le_of_sq_le_sq _ (by norm_num)
    nlinarith [sq_nonneg (dx * Real.sin θ + dy * Real.cos θ)]
  · apply abs_le_of_sq_le_sq _ (by norm_num)
    nlinarith [sq_nonneg (dx * Real.cos θ - dy * Real.sin θ)]

/-- The offsets that `update_offsets` stores, for points already in the order in which the code
uses them. -/
theorem update_offsets_ordered (v : State ℝ) (a b : Vec2 ℝ) (h : ¬ a.x > b.x) :
    (update_offsets realMath v a b).m_cfg.m_yaw_offset =
      (((a.x + b.x) / 2 - 512) * Real.cos (realMath.atan2 (-(b.y - a.y)) (b.x - a.x)) -
        ((a.y + b.y) / 2 - 384) * Real.sin (realMath.atan2 (-(b.y - a.y)) (b.x - a.x))) / 1024 *
        (π / 2) * v.m_wiimote_scale.x ∧
    (update_offsets realMath v a b).m_cfg.m_pitch_offset =
      (((a.x + b.x) / 2 - 512) * Real.sin (realMath.atan2 (-(b.y - a.y)) (b.x - a.x)) +
        ((a.y + b.y) / 2 - 384) * Real.cos (realMath.atan2 (-(b.y - a.y)) (b.x - a.x))) / 768 *
        (π / 2) * v.m_wiimote_scale.y := by
  constructor
  · simp only [update_offsets, h, if_false, Vec2.sub, Vec2.add, Vec2.div, Vec2.rotate, half_pi]
    simp only [realMath]
    ring
  · simp only [update_offsets, h, if_false, Vec2.sub, Vec2.add, Vec2.div, Vec2.rotate, half_pi]
    simp only [realMath]
    ring

theorem offsets_bounds_ordered (v : State ℝ) (a b : Vec2 ℝ) (h : ¬ a.x > b.x)
    (ha : 0 ≤ a.x ∧ a.x ≤ 1024 ∧ 0 ≤ a.y ∧ a.y ≤ 768)
    (hb : 0 ≤ b.x ∧ b.x ≤ 1024 ∧ 0 ≤ b.y ∧ b.y ≤ 768) :
    |(update_offsets realMath v a b).m_cfg.m_yaw_offset| ≤ 5 / 16 * π * |v.m_wiimote_scale.x| ∧
    |(update_offsets realMath v a b).m_cfg.m_pitch_offset| ≤ 5 / 12 * π * |v.m_wiimote_scale.y| ∧
    (a.y = b.y →
      |(update_offsets realMath v a b).m_cfg.m_yaw_offset| ≤ π / 4 * |v.m_wiimote_scale.x| ∧
      |(update_offsets realMath v a b).m_cfg.m_pitch_offset| ≤ π / 4 * |v.m_wiimote_scale.y|) := by
  obtain ⟨hy, hp⟩ := update_offsets_ordered v a b h
  have hpi := Real.pi_pos
  have hdx : |(a.x + b.x) / 2 - 512| ≤ 512 := by
    rw [abs_le]; constructor <;> linarith [ha.1, ha.2.1, hb.1, hb.2.1]
  have hdy : |(a.y + b.y) / 2 - 384| ≤ 384 := by
    rw [abs_le]; constructor <;> linarith [ha.2.2.1, ha.2.2.2, hb.2.2.1, hb.2.2.2]
  obtain ⟨hX, hY⟩ := rotate_within_640 _ _ (realMath.atan2 (-(b.y - a.y)) (b.x - a.x)) hdx hdy
  have hsx := abs_nonneg v.m_wiimote_scale.x
  have hsy := abs_nonneg v.m_wiimote_scale.y
  refine ⟨?_, ?_, ?_⟩
  · rw [hy, abs_mul, abs_mul, abs_div, abs_of_pos (show (0 : ℝ) < 1024 by norm_num),
      abs_of_pos (show 0 < π / 2 by positivity)]
    calc _ ≤ 640 / 1024 * (π / 2) * |v.m_wiimote_scale.x| := by gcongr
      _ = 5 / 16 * π * |v.m_wiimote_scale.x| := by ring
  · rw [hp, abs_mul, abs_mul, abs_div, abs_of_pos (show (0 : ℝ) < 768 by norm_num),
      abs_of_pos (show 0 < π / 2 by positivity)]
    calc _ ≤ 640 / 768 * (π / 2) * |v.m_wiimote_scale.y| := by gcongr
      _ = 5 / 12 * π * |v.m_wiimote_scale.y| := by ring
  · intro heq
    have hr : 0 ≤ b.x - a.x := by linarith [not_lt.mp h]
    have hang : realMath.atan2 (-(b.y - a.y)) (b.x - a.x) = 0 := by
      rw [heq, sub_self, neg_zero]
      show Complex.arg ⟨b.x - a.x, 0⟩ = 0
      have : (⟨b.x - a.x, 0⟩ : ℂ) = ((b.x - a.x : ℝ) : ℂ) := rfl
      rw [this]
      exact Complex.arg_ofReal_of_nonneg hr
    rw [hy, hp, hang, Real.cos_zero, Real.sin_zero]
    simp only [mul_one, mul_zero, sub_zero, zero_add]
    constructor
    · rw [abs_mul, abs_mul, abs_div, abs_of_pos (show (0 : ℝ) < 1024 by norm_num),
        abs_of_pos (show 0 < π / 2 by positivity)]
      calc _ ≤ 512 / 1024 * (π / 2) * |v.m_wiimote_scale.x| := by gcongr
        _ = π / 4 * |v.m_wiimote_scale.x| := by ring
    · rw [abs_mul, abs_mul, abs_div, abs_of_pos (show (0 : ℝ) < 768 by norm_num),
        abs_of_pos (show 0 < π / 2 by positivity)]
      calc _ ≤ 384 / 768 * (π / 2) * |v.m_wiimote_scale.y| := by gcongr
        _ = π / 4 * |v.m_wiimote_scale.y| := by ring

theorem atan2_six_eight :
    Real.cos (realMath.atan2 (-8) 6) = 6 / 10 ∧ Real.sin (realMath.atan2 (-8) 6) = -8 / 10 := by
  have habs : Complex.abs ⟨6, -8⟩ = 10 := by
    rw [Complex.abs_apply, Complex.normSq_mk]
    rw [show (6 : ℝ) * 6 + -8 * -8 = 10 ^ 2 by norm_num]
    exact Real.sqrt_sq (by norm_num)
  have hne : (⟨6, -8⟩ : ℂ) ≠ 0 := by
    intro h
    have := congrArg Complex.re h
    norm_num at this
  constructor
  · show Real.cos (Complex.arg ⟨6, -8⟩) = 6 / 10
    rw [Complex.cos_arg hne, habs]
  · show Real.sin (Complex.arg ⟨6, -8⟩) = -8 / 10
    rw [Complex.sin_arg, habs]

/-- C12, counterexample: the points `(1009, 380)` and `(1015, 388)` lie inside the 1024x768
area and the scale factors are 1; the midpoint `(1012, 384)` is turned about the centre to
`(812, -16)`, and the pitch offset stored is `-(25/96) * pi`, below `-pi/4`. -/
theorem pitch_offset_outside_quarter_pi_counterexample :
    (rest_state : State ℝ).m_wiimote_scale.x = 1 ∧
    (rest_state : State ℝ).m_wiimote_scale.y = 1 ∧
    (update_offsets realMath rest_state ⟨1009, 380⟩ ⟨1015, 388⟩).m_cfg.m_pitch_offset
      = -(25 / 96) * π ∧
    (update_offsets realMath rest_state ⟨1009, 380⟩ ⟨1015, 388⟩).m_cfg.m_pitch_offset
      < -(π / 4) := by
  have hpi := Real.pi_pos
  have hang : realMath.atan2 (-(388 - 380)) (1015 - 1009) = realMath.atan2 (-8) 6 := by
    norm_num
  have hp : (update_offsets realMath rest_state ⟨1009, 380⟩ ⟨1015, 388⟩).m_cfg.m_pitch_offset
      = -(25 / 96) * π := by
    rw [(update_offsets_ordered rest_state ⟨1009, 380⟩ ⟨1015, 388⟩ (by norm_num)).2]
    simp only [hang, atan2_six_eight.1, atan2_six_eight.2, rest_state]
    ring
  refine ⟨rfl, rfl, hp, ?_⟩
  rw [hp]
  linarith

/-- C12, amended: for every pair of tracked points inside the 1024x768 device area, the yaw
offset stored by `update_offsets` lies in `[-(5/16) pi |sx|, (5/16) pi |sx|]` and the pitch
offset in `[-(5/12) pi |sy|, (5/12) pi |sy|]`, where `sx`, `sy` are the scale factors: the
turn about the centre keeps the midpoint within distance 640 of it.  When the two points have
the same `y`, so that the roll is zero, both offsets lie in `[-pi/4 |sx|, pi/4 |sx|]` and
`[-pi/4 |sy|, pi/4 |sy|]`. -/
theorem update_offsets_yaw_pitch_range (v : State ℝ) (a b : Vec2 ℝ)
    (ha : 0 ≤ a.x ∧ a.x ≤ 1024 ∧ 0 ≤ a.y ∧ a.y ≤ 768)
    (hb : 0 ≤ b.x ∧ b.x ≤ 1024 ∧ 0 ≤ b.y ∧ b.y ≤ 768) :
    |(update_offsets realMath v a b).m_cfg.m_yaw_offset| ≤ 5 / 16 * π * |v.m_wiimote_scale.x| ∧
    |(update_offsets realMath v a b).m_cfg.m_pitch_offset| ≤ 5 / 12 * π * |v.m_wiimote_scale.y| ∧
    (a.y = b.y →
      |(update_offsets realMath v a b).m_cfg.m_yaw_offset| ≤ π / 4 * |v.m_wiimote_scale.x| ∧
      |(update_offsets realMath v a b).m_cfg.m_pitch_offset| ≤ π / 4 * |v.m_wiimote_scale.y|) := by
  by_cases h : a.x > b.x
  · rw [update_offsets_swap_of_ne realMath v a b (ne_of_gt h)]
    obtain ⟨h1, h2, h3⟩ := offsets_bounds_ordered v b a (not_lt.mpr h.le) hb ha
    exact ⟨h1, h2, fun heq => h3 heq.symm⟩
  · exact offsets_bounds_ordered v a b h ha hb

/-- C12, amended, at concrete points: two points of equal height near the right edge. -/
theorem update_offsets_yaw_pitch_range_witness :
    |(update_offsets realMath rest_state ⟨1000, 100⟩ ⟨1020, 100⟩).m_cfg.m_yaw_offset|
      ≤ π / 4 * |(rest_state : State ℝ).m_wiimote_scale.x| :=
  ((update_offsets_yaw_pitch_range rest_state ⟨1000, 100⟩ ⟨1020, 100⟩
    ⟨by norm_num, by norm_num, by norm_num, by norm_num⟩
    ⟨by norm_num, by norm_num, by norm_num, by norm_num⟩).2.2 rfl).1

end OffsetRange

/-! ## The command line: reads past the last argument -/

section Reads

theorem parse_loop_reads_cons {α : Type} [LinearOrderedField α] (M : FloatMath α)
    (sscanf : List Char → Int × α × α) (i : Nat)
    (arg : String) (rest : List String) (opts : Options α) :
    parse_loop_reads M sscanf i (arg :: rest) opts =
      if starts_with_dash arg then
        if arg = "--wiimote" then
          (i :: (parse_loop_reads M sscanf (i + 1) rest { opts with wiimote := true }).1,
            (parse_loop_reads M sscanf (i + 1) rest { opts with wiimote := true }).2)
        else if arg = "--video" then
          match rest with
          | [] => ([i, i + 1], .null_argument (i + 1))
          | value :: rest =>
            (i :: (i + 1) :: (parse_loop_reads M sscanf (i + 2) rest
                { opts with video := { opts.video with filename := value } }).1,
              (parse_loop_reads M sscanf (i + 2) rest
                { opts with video := { opts.video with filename := value } }).2)
        else if arg = "--video3d" then
          match rest with
          | [] => ([i, i + 1], .null_argument (i + 1))
          | value :: rest =>
            (i :: (i + 1) :: (parse_loop_reads M sscanf (i + 2) rest
                { opts with video := { opts.video with stereo := true, filename := value } }).1,
              (parse_loop_reads M sscanf (i + 2) rest
                { opts with video := { opts.video with stereo := true, filename := value } }).2)
        else if arg = "--video3d-fov" then
          match rest with
          | [] => ([i, i + 1], .null_argument (i + 1))
          | value :: rest =>
            if (sscanf value.data).1 ≠ 2 then
              ([i, i + 1],
                .runtime_error ("expected --video3d-fov HFOVxVFOV, got '" ++ arg ++ "'"))
            else
              (i :: (i + 1) :: (parse_loop_reads M sscanf (i + 2) rest
                  { opts with video := { opts.video with
                      hfov := radians M (sscanf value.data).2.1
                      vfov := radians M (sscanf value.data).2.2 } }).1,
                (parse_loop_reads M sscanf (i + 2) rest
                  { opts with video := { opts.video with
                      hfov := radians M (sscanf value.data).2.1
                      vfov := radians M (sscanf value.data).2.2 } }).2)
        else if arg = "--help" ∨ arg = "-h" then
          ([i, 0], .exit 0)
        else
          ([i], .runtime_error ("unknown option: " ++ arg))
      else
        (i :: (parse_loop_reads M sscanf (i + 1) rest { opts with models := opts.models ++ [arg] }).1,
          (parse_loop_reads M sscanf (i + 1) rest { opts with models := opts.models ++ [arg] }).2) := by
  cases rest <;> simp only [parse_loop_reads]

/-- The loop with its reads ends as the loop without them. -/
theorem parse_loop_reads_result {α : Type} [LinearOrderedField α] (M : FloatMath α)
    (sscanf : List Char → Int × α × α) (n : Nat) :
    ∀ (i : Nat) (rest : List String) (opts : Options α), rest.length = n →
      (parse_loop_reads M sscanf i rest opts).2 = parse_loop M sscanf i rest opts := by
  induction n using Nat.strong_induction_on with
  | _ n ih =>
    intro i rest opts hlen
    cases rest with
    | nil => rfl
    | cons arg rest1 =>
      simp only [List.length_cons] at hlen
      subst hlen
      rw [parse_loop_reads_cons, parse_loop_cons]
      split_ifs
      · exact ih rest1.length (by omega) _ _ _ rfl
      · cases rest1 with
        | nil => rfl
        | cons value rest2 =>
          exact ih rest2.length (by simp only [List.length_cons]; omega) _ _ _ rfl
      · cases rest1 with
        | nil => rfl
        | cons value rest2 =>
          exact ih rest2.length (by simp only [List.length_cons]; omega) _ _ _ rfl
      · cases rest1 with
        | nil => rfl
        | cons value rest2 =>
          simp only
          split_ifs
          · rfl
          · exact ih rest2.length (by simp only [List.length_cons]; omega) _ _ _ rfl
      · rfl
      · rfl
      · exact ih rest1.length (by omega) _ _ _ rfl

/-- Every position that the loop reads is at most `argc`, and `argc` itself is read exactly
when the loop ends by handing `argv[argc]` on. -/
theorem parse_loop_reads_bound {α : Type} [LinearOrderedField α] (M : FloatMath α)
    (sscanf : List Char → Int × α × α) (m : Nat) :
    ∀ (i : Nat) (rest : List String) (opts : Options α), rest.length = m → 1 ≤ i →
      (∀ k ∈ (parse_loop_reads M sscanf i rest opts).1, k ≤ i + m) ∧
      (i + m ∈ (parse_loop_reads M sscanf i rest opts).1 ↔
        (parse_loop_reads M sscanf i rest opts).2 = .null_argument (i + m)) := by
  induction m using Nat.strong_induction_on with
  | _ m ih =>
    intro i rest opts hlen hi
    cases rest with
    | nil =>
      subst hlen
      simp [parse_loop_reads]
    | cons arg rest1 =>
      simp only [List.length_cons] at hlen
      subst hlen
      have one : ∀ o : Options α,
          (∀ k ∈ i :: (parse_loop_reads M sscanf (i + 1) rest1 o).1, k ≤ i + (rest1.length + 1)) ∧
          (i + (rest1.length + 1) ∈ i :: (parse_loop_reads M sscanf (i + 1) rest1 o).1 ↔
            (parse_loop_reads M sscanf (i + 1) rest1 o).2 = .null_argument (i + (rest1.length + 1))) := by
        intro o
        obtain ⟨h1, h2⟩ := ih rest1.length (by omega) (i + 1) rest1 o rfl (by omega)
        rw [show i + 1 + rest1.length = i + (rest1.length + 1) by omega] at h1 h2
        refine ⟨?_, ?_⟩
        · intro k hk
          rcases List.mem_cons.mp hk with hk | hk
          · omega
          · exact h1 k hk
        · rw [List.mem_cons, ← h2]
          constructor
          · rintro (h | h)
            · omega
            · exact h
          · exact Or.inr
      have two : ∀ (value : String) (rest2 : List String) (o : Options α),
          rest1 = value :: rest2 →
          (∀ k ∈ i :: (i + 1) :: (parse_loop_reads M sscanf (i + 2) rest2 o).1,
            k ≤ i + (rest1.length + 1)) ∧
          (i + (rest1.length + 1) ∈ i :: (i + 1) :: (parse_loop_reads M sscanf (i + 2) rest2 o).1 ↔
            (parse_loop_reads M sscanf (i + 2) rest2 o).2 = .null_argument (i + (rest1.length + 1))) := by
        intro value rest2 o hr
        subst hr
        obtain ⟨h1, h2⟩ := ih rest2.length (by simp only [List.length_cons]; omega) (i + 2) rest2
          o rfl (by omega)
        simp only [List.length_cons]
        rw [show i + 2 + rest2.length = i + (rest2.length + 1 + 1) by omega] at h1 h2
        refine ⟨?_, ?_⟩
        · intro k hk
          rcases List.mem_cons.mp hk with hk | hk
          · omega
          · rcases List.mem_cons.mp hk with hk | hk
            · omega
            · exact h1 k hk
        · rw [List.mem_cons, List.mem_cons, ← h2]
          constructor
          · rintro (h | h | h)
            · omega
            · omega
            · exact h
          · exact fun h => Or.inr (Or.inr h)
      have last : rest1 = [] →
          (∀ k ∈ [i, i + 1], k ≤ i + (rest1.length + 1)) ∧
          (i + (rest1.length + 1) ∈ [i, i + 1] ↔
            (ParseResult.null_argument (i + 1) : ParseResult α)
              = .null_argument (i + (rest1.length + 1))) := by
        intro hr
        subst hr
        simp
      rw [parse_loop_reads_cons]
      split_ifs
      · exact one _
      · cases rest1 with
        | nil => exact last rfl
        | cons value rest2 => exact two value rest2 _ rfl
      · cases rest1 with
        | nil => exact last rfl
        | cons value rest2 => exact two value rest2 _ rfl
      · cases rest1 with
        | nil => exact last rfl
        | cons value rest2 =>
          simp only
          split_ifs
          · simp only [List.length_cons]
            refine ⟨?_, ?_⟩
            · intro k hk
              simp only [List.mem_cons, List.mem_singleton, List.not_mem_nil, or_false] at hk
              omega
            · simp only [List.mem_cons, List.mem_singleton, List.not_mem_nil, or_false,
                reduceCtorEq, iff_false]
              omega
          · exact two value rest2 _ rfl
      · refine ⟨?_, ?_⟩
        · intro k hk
          simp only [List.mem_cons, List.mem_singleton, List.not_mem_nil, or_false] at hk
          omega
        · simp only [List.mem_cons, List.mem_singleton, List.not_mem_nil, or_false,
            reduceCtorEq, iff_false]
          omega
      · refine ⟨?_, ?_⟩
        · intro k hk
          simp only [List.mem_cons, List.mem_singleton, List.not_mem_nil, or_false] at hk
          omega
        · simp only [List.mem_cons, List.mem_singleton, List.not_mem_nil, or_false,
            reduceCtorEq, iff_false]
          omega
      · exact one _

theorem stops_at_eq {α : Type} [LinearOrderedField α] (sscanf : List Char → Int × α × α)
    (argv : List String) (k : Nat) (arg value : String)
    (h1 : argv.getD k "" = arg) (h2 : argv.getD (k + 1) "" = value) :
    stops_at sscanf argv k =
      (starts_with_dash arg && arg != "--wiimote" &&
        (!is_value_flag arg ||
          (arg == "--video3d-fov" && (sscanf value.data).1 != 2))) := by
  unfold stops_at
  rw [h1, h2]

theorem drop_length_eq (argv : List String) (i : Nat) (arg : String) (rest : List String)
    (h : argv.drop i = arg :: rest) : argv.length = i + (rest.length + 1) := by
  have := congrArg List.length h
  simp only [List.length_drop, List.length_cons] at this
  omega

/-- The loop, arriving at a flag position `i` below `argc`, ends by handing `argv[argc]` on
exactly when the last argument is a value-taking flag that is not consumed as a value and the
loop stops at no flag position from `i` on before it. -/
theorem parse_loop_null_iff {α : Type} [LinearOrderedField α] (M : FloatMath α)
    (sscanf : List Char → Int × α × α)
    (argv : List String) (m : Nat) :
    ∀ (i : Nat) (rest : List String) (opts : Options α),
      rest.length = m → argv.drop i = rest → 1 ≤ i → 0 < m → consumed argv i = false →
      (parse_loop M sscanf i rest opts = .null_argument argv.length ↔
        (is_value_flag (argv.getD (argv.length - 1) "") = true ∧
          consumed argv (argv.length - 1) = false ∧
          ∀ k, i ≤ k → k < argv.length - 1 → consumed argv k = false →
            stops_at sscanf argv k = false)) := by
  induction m using Nat.strong_induction_on with
  | _ m ih =>
    intro i rest opts hlen hdrop hi hm hcons
    cases rest with
    | nil => simp at hlen; omega
    | cons arg rest1 =>
      have hn := drop_length_eq argv i arg rest1 hdrop
      obtain ⟨hget, hdrop1⟩ := getD_of_drop argv i arg rest1 hdrop
      have hget' : argv[i]?.getD "" = arg := by simpa using hget
      simp only [List.length_cons] at hlen
      subst hlen
      have hc1 : consumed argv (i + 1) = is_value_flag arg := by
        simp [consumed, hi, hget', hcons]
      -- the loop goes on at `i + 1`
      have one : ∀ o : Options α, is_value_flag arg = false → stops_at sscanf argv i = false →
          (parse_loop M sscanf (i + 1) rest1 o = .null_argument argv.length ↔
            (is_value_flag (argv.getD (argv.length - 1) "") = true ∧
              consumed argv (argv.length - 1) = false ∧
              ∀ k, i ≤ k → k < argv.length - 1 → consumed argv k = false →
                stops_at sscanf argv k = false)) := by
        intro o hv hst
        cases rest1 with
        | nil =>
          have hlast : argv.length - 1 = i := by simp only [List.length_nil] at hn; omega
          rw [hlast, hget, hv]
          simp [parse_loop]
        | cons a2 rest2 =>
          rw [ih (a2 :: rest2).length (by simp) (i + 1) (a2 :: rest2) o rfl hdrop1 (by omega)
            (by simp) (by rw [hc1, hv])]
          constructor
          · rintro ⟨p1, p2, p3⟩
            refine ⟨p1, p2, fun k hk1 hk2 hk3 => ?_⟩
            rcases Nat.eq_or_lt_of_le hk1 with hk | hk
            · rw [← hk]; exact hst
            · exact p3 k (by omega) hk2 hk3
          · rintro ⟨p1, p2, p3⟩
            exact ⟨p1, p2, fun k hk1 hk2 hk3 => p3 k (by omega) hk2 hk3⟩
      -- the loop consumes `argv[i+1]` and goes on at `i + 2`
      have two : ∀ (value : String) (rest2 : List String) (o : Options α),
          rest1 = value :: rest2 → is_value_flag arg = true →
          stops_at sscanf argv i = false →
          (parse_loop M sscanf (i + 2) rest2 o = .null_argument argv.length ↔
            (is_value_flag (argv.getD (argv.length - 1) "") = true ∧
              consumed argv (argv.length - 1) = false ∧
              ∀ k, i ≤ k → k < argv.length - 1 → consumed argv k = false →
                stops_at sscanf argv k = false)) := by
        intro value rest2 o hr hv hst
        subst hr
        obtain ⟨-, hdrop2⟩ := getD_of_drop argv (i + 1) value rest2 hdrop1
        have hc1' : consumed argv (i + 1) = true := by rw [hc1, hv]
        have hc2 : consumed argv (i + 2) = false := by
          show (decide (1 ≤ i + 1) && is_value_flag (argv.getD (i + 1) "") &&
            !consumed argv (i + 1)) = false
          rw [hc1']; simp
        cases rest2 with
        | nil =>
          have hlast : argv.length - 1 = i + 1 := by
            simp only [List.length_cons, List.length_nil] at hn; omega
          rw [hlast, hc1']
          simp [parse_loop]
        | cons a3 rest3 =>
          rw [ih (a3 :: rest3).length (by simp) (i + 2) (a3 :: rest3) o rfl hdrop2 (by omega)
            (by simp) hc2]
          constructor
          · rintro ⟨p1, p2, p3⟩
            refine ⟨p1, p2, fun k hk1 hk2 hk3 => ?_⟩
            rcases Nat.eq_or_lt_of_le hk1 with hk | hk
            · rw [← hk]; exact hst
            · rcases Nat.eq_or_lt_of_le (Nat.succ_le_of_lt hk) with hk' | hk'
              · rw [← hk', hc1'] at hk3
                exact absurd hk3 (by decide)
              · exact p3 k (by omega) hk2 hk3
          · rintro ⟨p1, p2, p3⟩
            exact ⟨p1, p2, fun k hk1 hk2 hk3 => p3 k (by omega) hk2 hk3⟩
      -- the value-taking flag is the last argument
      have last : rest1 = [] → is_value_flag arg = true →
          ((ParseResult.null_argument (i + 1) : ParseResult α) = .null_argument argv.length ↔
            (is_value_flag (argv.getD (argv.length - 1) "") = true ∧
              consumed argv (argv.length - 1) = false ∧
              ∀ k, i ≤ k → k < argv.length - 1 → consumed argv k = false →
                stops_at sscanf argv k = false)) := by
        intro hr hv
        subst hr
        have hlen : argv.length = i + 1 := by simpa using hn
        have hlast : argv.length - 1 = i := by omega
        rw [hlast, hget, hv, hcons, hlen]
        simp only [true_and, true_iff]
        intro k hk1 hk2
        omega
      -- the loop stops at `i`
      have stop : stops_at sscanf argv i = true → (rest1 = [] → is_value_flag arg = false) →
          ¬ (is_value_flag (argv.getD (argv.length - 1) "") = true ∧
              consumed argv (argv.length - 1) = false ∧
              ∀ k, i ≤ k → k < argv.length - 1 → consumed argv k = false →
                stops_at sscanf argv k = false) := by
        intro hst hlastv
        rintro ⟨p1, p2, p3⟩
        cases rest1 with
        | nil =>
          have hlast : argv.length - 1 = i := by simp only [List.length_nil] at hn; omega
          rw [hlast, hget, hlastv rfl] at p1
          exact absurd p1 (by decide)
        | cons a2 rest2 =>
          have := p3 i (le_refl i) (by simp only [List.length_cons] at hn; omega) hcons
          rw [hst] at this
          exact absurd this (by decide)
      have hval : ∀ value rest2, rest1 = value :: rest2 → argv.getD (i + 1) "" = value := by
        intro value rest2 hr
        subst hr
        exact (getD_of_drop argv (i + 1) value rest2 hdrop1).1
      rw [parse_loop_cons]
      by_cases hd : starts_with_dash arg = true
      · rw [if_pos hd]
        split_ifs with h1 h2 h3 h4 h5
        · -- --wiimote
          refine one _ (by rw [h1]; decide) ?_
          rw [stops_at_eq sscanf argv i arg _ hget rfl, h1]
          simp
        · -- --video
          cases rest1 with
          | nil => exact last rfl (by rw [h2]; decide)
          | cons value rest2 =>
            refine two value rest2 _ rfl (by rw [h2]; decide) ?_
            rw [stops_at_eq sscanf argv i arg _ hget rfl, h2]
            simp [starts_with_dash, is_value_flag]
        · -- --video3d
          cases rest1 with
          | nil => exact last rfl (by rw [h3]; decide)
          | cons value rest2 =>
            refine two value rest2 _ rfl (by rw [h3]; decide) ?_
            rw [stops_at_eq sscanf argv i arg _ hget rfl, h3]
            simp [starts_with_dash, is_value_flag]
        · -- --video3d-fov
          cases rest1 with
          | nil => exact last rfl (by rw [h4]; decide)
          | cons value rest2 =>
            have hst := stops_at_eq sscanf argv i arg value hget (hval value rest2 rfl)
            simp only
            split_ifs with hs
            · refine iff_of_false (by simp) (stop ?_ (fun h => by simp at h))
              rw [hst, h4]
              simp [starts_with_dash, is_value_flag, hs]
            · refine two value rest2 _ rfl (by rw [h4]; decide) ?_
              rw [hst, h4]
              have hs' : (sscanf value.data).1 = 2 := by
                simpa using hs
              simp [starts_with_dash, is_value_flag, hs']
        · -- --help, -h
          have hv : is_value_flag arg = false := by simp [is_value_flag, h2, h3, h4]
          refine iff_of_false (by simp) (stop ?_ (fun _ => hv))
          rw [stops_at_eq sscanf argv i arg _ hget rfl, hd, hv]
          simp [h1]
        · -- unknown option
          have hv : is_value_flag arg = false := by simp [is_value_flag, h2, h3, h4]
          refine iff_of_false (by simp) (stop ?_ (fun _ => hv))
          rw [stops_at_eq sscanf argv i arg _ hget rfl, hd, hv]
          simp [h1]
      · rw [if_neg hd]
        have hd' : starts_with_dash arg = false := by simpa using hd
        have hv : is_value_flag arg = false := by
          cases hv : is_value_flag arg with
          | false => rfl
          | true => exact absurd (is_value_flag_dash arg hv) hd
        refine one _ hv ?_
        rw [stops_at_eq sscanf argv i arg _ hget rfl, hd']
        rfl

theorem dangling_value_flag_iff {α : Type} [LinearOrderedField α]
    (sscanf : List Char → Int × α × α) (argv : List String) :
    dangling_value_flag sscanf argv = true ↔
      (2 ≤ argv.length ∧ is_value_flag (argv.getD (argv.length - 1) "") = true ∧
        consumed argv (argv.length - 1) = false ∧
        ∀ k, 1 ≤ k → k < argv.length - 1 → consumed argv k = false →
          stops_at sscanf argv k = false) := by
  unfold dangling_value_flag
  simp only [Bool.and_eq_true, decide_eq_true_eq, Bool.not_eq_true', List.all_eq_true,
    List.mem_range, Bool.not_eq_true', Bool.and_eq_false_imp, and_assoc]
  constructor
  · rintro ⟨h1, h2, h3, h4⟩
    exact ⟨h1, h2, h3, fun k hk1 hk2 hk3 => h4 k hk2 ⟨hk1, hk3⟩⟩
  · rintro ⟨h1, h2, h3, h4⟩
    exact ⟨h1, h2, h3, fun k hk2 hk => h4 k hk.1 hk2 hk.2⟩

/-- C14: whatever the `sscanf` of the C library does, for every argument list, `parse_args`
reads only positions of `argv` below `argc` if and only if no value-taking flag (`--video`, `--video3d`, `--video3d-fov`) is the last
argument at a flag position that the loop arrives at before any `--help`, `-h` or argument
error; and when there is such a flag, `parse_args` reads position `argc` and ends by handing
`argv[argc]` on, not by an argument error. -/
theorem parse_args_reads_past_end {α : Type} [LinearOrderedField α] (M : FloatMath α)
    (sscanf : List Char → Int × α × α)
    (argv : List String) (opts : Options α) :
    (parse_args_reads M sscanf argv opts).2 = parse_args M sscanf argv opts ∧
    ((∀ k ∈ (parse_args_reads M sscanf argv opts).1, k < argv.length) ↔
      dangling_value_flag sscanf argv = false) ∧
    (dangling_value_flag sscanf argv = true →
      argv.length ∈ (parse_args_reads M sscanf argv opts).1 ∧
      parse_args M sscanf argv opts = .null_argument argv.length ∧
      ∀ what : String, parse_args M sscanf argv opts ≠ .runtime_error what) := by
  have hres : (parse_args_reads M sscanf argv opts).2 = parse_args M sscanf argv opts :=
    parse_loop_reads_result M sscanf _ 1 (argv.drop 1) opts rfl
  refine ⟨hres, ?_⟩
  have hshort : argv.length < 2 →
      ((∀ k ∈ (parse_args_reads M sscanf argv opts).1, k < argv.length) ↔
        dangling_value_flag sscanf argv = false) ∧
      (dangling_value_flag sscanf argv = true →
        argv.length ∈ (parse_args_reads M sscanf argv opts).1 ∧
        parse_args M sscanf argv opts = .null_argument argv.length ∧
        ∀ what : String, parse_args M sscanf argv opts ≠ .runtime_error what) := by
    intro hlt
    have hd : dangling_value_flag sscanf argv = false := by
      cases hdv : dangling_value_flag sscanf argv with
      | false => rfl
      | true =>
        have := ((dangling_value_flag_iff sscanf argv).mp hdv).1
        omega
    have hr : (parse_args_reads M sscanf argv opts).1 = [] := by
      match argv, hlt with
      | [], _ => rfl
      | [_], _ => rfl
    rw [hd, hr]
    simp
  match argv, hshort with
  | [], hshort => exact hshort (by simp)
  | [_], hshort => exact hshort (by simp)
  | prog :: a :: t, _ =>
    have hn : (prog :: a :: t).length = 1 + (a :: t).length := by
      simp only [List.length_cons]; omega
    obtain ⟨hA1, hA2⟩ := parse_loop_reads_bound M sscanf (a :: t).length 1 (a :: t) opts rfl (le_refl 1)
    have hB := parse_loop_null_iff M sscanf (prog :: a :: t) (a :: t).length 1 (a :: t) opts rfl rfl
      (le_refl 1) (by simp) rfl
    have hreads : (parse_args_reads M sscanf (prog :: a :: t) opts).1
        = (parse_loop_reads M sscanf 1 (a :: t) opts).1 := rfl
    have hargs : parse_args M sscanf (prog :: a :: t) opts = parse_loop M sscanf 1 (a :: t) opts := rfl
    have hres' : (parse_loop_reads M sscanf 1 (a :: t) opts).2 = parse_loop M sscanf 1 (a :: t) opts :=
      parse_loop_reads_result M sscanf _ 1 (a :: t) opts rfl
    rw [hres', ← hn] at hA2
    rw [← hn] at hA1
    have hD := dangling_value_flag_iff sscanf (prog :: a :: t)
    have h2 : 2 ≤ (prog :: a :: t).length := by simp only [List.length_cons]; omega
    have hdn : dangling_value_flag sscanf (prog :: a :: t) = true ↔
        parse_loop M sscanf 1 (a :: t) opts = .null_argument (prog :: a :: t).length := by
      rw [hD, hB]
      exact ⟨fun h => h.2, fun h => ⟨h2, h⟩⟩
    rw [hreads, hargs]
    constructor
    · constructor
      · intro hall
        cases hdv : dangling_value_flag sscanf (prog :: a :: t) with
        | false => rfl
        | true =>
          have := hall _ (hA2.mpr (hdn.mp hdv))
          omega
      · intro hdv k hk
        have hle := hA1 k hk
        rcases Nat.eq_or_lt_of_le hle with heq | hlt
        · exfalso
          rw [heq] at hk
          have := hdn.mpr (hA2.mp hk)
          rw [hdv] at this
          exact absurd this (by decide)
        · exact hlt
    · intro hdv
      have hnull := hdn.mp hdv
      refine ⟨hA2.mpr hnull, hnull, ?_⟩
      intro what
      rw [hnull]
      simp

/-- C14 at a concrete command line of three arguments with `--video` last: position 3 is read
and the call ends by handing `argv[3]` on.  The command line has no `--video3d-fov`, so
`sscanf` is never called and any function can stand for it. -/
theorem parse_args_reads_past_end_witness :
    dangling_value_flag (fun _ => ((0 : Int), (0 : ℝ), (0 : ℝ))) ["viewer", "a.obj", "--video"] = true ∧
    (3 ∈ (parse_args_reads realMath (fun _ => (0, 0, 0)) ["viewer", "a.obj", "--video"] blank_options).1 ∧
      parse_args realMath (fun _ => (0, 0, 0)) ["viewer", "a.obj", "--video"] (blank_options : Options ℝ)
        = .null_argument 3 ∧
      ∀ what : String,
        parse_args realMath (fun _ => (0, 0, 0)) ["viewer", "a.obj", "--video"] (blank_options : Options ℝ)
          ≠ .runtime_error what) :=
  ⟨by rfl,
   (parse_args_reads_past_end realMath (fun _ => (0, 0, 0)) ["viewer", "a.obj", "--video"] blank_options).2.2
     (by rfl)⟩

end Reads

end Viewer
